import Mathlib

/-!
Verification of the PTP clock-chain configuration pipeline: data model,
alias resolver, validator, plugin registry and default-merge engine,
shallowly embedded from the Go sources (`types.go`, `plugin_manager.go`,
`main.go`).  Go maps keyed by strings are modelled as association lists
(iteration order is the list order); `float64` fields are only ever
copied or tested for presence in the modelled fragment, so they are
represented by `Int`.  Functions that mutate the document in place and
return an `error` are modelled as functions returning the final document
state together with an optional error message.
-/

/-- Association-list lookup, first match wins (models Go map lookup:
entries are kept so that the most recent binding for a key is first). -/
def alookup {β : Type} : List (String × β) → String → Option β
  | [], _ => none
  | (k, v) :: rest, key => if k = key then some v else alookup rest key

/-- Association-list update in place: replaces the binding of an existing
key, otherwise appends (models Go `m[k] = v`). -/
def assocSet {β : Type} : List (String × β) → String → β → List (String × β)
  | [], k, v => [(k, v)]
  | (k', v') :: rest, k, v =>
    if k' = k then (k, v) :: rest else (k', v') :: assocSet rest k v

/-- Fail-fast loop over a list: returns the first error produced, if any
(models Go loops that `return err` on the first failing element). -/
def firstErr {α : Type} (f : α → Option String) : List α → Option String
  | [] => none
  | x :: rest =>
    match f x with
    | some e => some e
    | none => firstErr f rest

/-- Replaces the element at an index by applying `f`; out-of-range
indices leave the list unchanged (models mutation through a pointer to a
slice element). -/
def modifyAt {α : Type} (f : α → α) : Nat → List α → List α
  | _, [] => []
  | 0, a :: l => f a :: l
  | n + 1, a :: l => a :: modifyAt f n l

/-! ## Data model (`types.go`) -/

/-- Desired state of a single pin (`PinState`). -/
structure PinState where
  priority : Option Int
  state : String
deriving DecidableEq, Repr

/-- Desired pin/connector settings applied when a condition triggers
(`DesiredState`). -/
structure DesiredState where
  clockID : String
  boardLabel : String
  eec : Option PinState
  pps : Option PinState
deriving DecidableEq, Repr

/-- State of a source in a condition evaluation (`SourceState`). -/
structure SourceState where
  sourceName : String
  conditionType : String
deriving DecidableEq, Repr

/-- A behavioral condition (`Condition`). -/
structure Condition where
  name : String
  sources : List SourceState
  desiredStates : List DesiredState
deriving DecidableEq, Repr

/-- A synchronization source (`SourceConfig`). -/
structure SourceConfig where
  name : String
  clockID : String
  sourceType : String
  boardLabel : String
  ptpTimeReceivers : List String
deriving DecidableEq, Repr

/-- The behavior section (`Behavior`). -/
structure Behavior where
  sources : List SourceConfig
  conditions : List Condition
deriving DecidableEq, Repr

/-- Phase adjustment in picoseconds (`PhaseAdjustment`). -/
structure PhaseAdjustment where
  internal : Int
  external : Option Int
  description : String
deriving DecidableEq, Repr

/-- Pin configuration (`PinConfig`); `frequency` is `*float64` in Go and
is only tested for presence here. -/
structure PinConfig where
  connector : String
  phaseAdjustment : Option PhaseAdjustment
  frequency : Option Int
  syncTechnologyConfigName : String
  description : String
  referenceSync : String
deriving DecidableEq, Repr

/-- DPLL configuration (`DPLL`): an optional clock ID and four pin maps
keyed by board label. -/
structure DPLL where
  clockID : String
  phaseInputs : List (String × PinConfig)
  phaseOutputs : List (String × PinConfig)
  frequencyInputs : List (String × PinConfig)
  frequencyOutputs : List (String × PinConfig)
deriving DecidableEq, Repr

/-- Ethernet port group (`Ethernet`). -/
structure Ethernet where
  ports : List String
deriving DecidableEq, Repr

/-- An atomic synchronization subsystem (`Subsystem`). -/
structure Subsystem where
  name : String
  hardwarePlugin : String
  dpll : DPLL
  ethernet : List Ethernet
deriving DecidableEq, Repr

/-- eSync feature parameters (`ESyncConfig`, all `float64` in Go). -/
structure ESyncConfig where
  transferFrequency : Int
  embeddedSyncFrequency : Int
  dutyCyclePct : Int
deriving DecidableEq, Repr

/-- Named eSync definition (`ESyncDefinition`). -/
structure ESyncDefinition where
  name : String
  esyncConfig : ESyncConfig
deriving DecidableEq, Repr

/-- Named reference-sync definition (`RefSyncDefinition`). -/
structure RefSyncDefinition where
  name : String
  relatedPinBoardLabel : String
deriving DecidableEq, Repr

/-- Alias for a clock ID (`ClockIdentifier`; the Go field `Alias` is
renamed `aliasName` because `alias` is reserved here). -/
structure ClockIdentifier where
  aliasName : String
  clockID : String
  description : String
deriving DecidableEq, Repr

/-- Shared definitions (`CommonDefinitions`). -/
structure CommonDefinitions where
  eSyncDefinitions : List ESyncDefinition
  refSyncDefinitions : List RefSyncDefinition
  clockIdentifiers : List ClockIdentifier
deriving DecidableEq, Repr

/-- Root document (`ClockChain`; the Go field `Structure` is renamed
`chainStructure` because `structure` is reserved here). -/
structure ClockChain where
  commonDefinitions : Option CommonDefinitions
  chainStructure : List Subsystem
  behavior : Option Behavior
deriving DecidableEq, Repr

/-! ## Plugin data model (`types.go`, plugin section) -/

/-- Plugin metadata (`PluginInfo`). -/
structure PluginInfo where
  name : String
  description : String
  version : String
  vendor : String
deriving DecidableEq, Repr

/-- Per-pin default (`PluginPinDefaults`, priority is `*float64`). -/
structure PluginPinDefaults where
  priority : Option Int
  state : String
deriving DecidableEq, Repr

/-- One entry of `PluginSpecificDefaults`: optional EEC and PPS
defaults for a board label. -/
structure SpecificDefaultEntry where
  eec : Option PluginPinDefaults
  pps : Option PluginPinDefaults
deriving DecidableEq, Repr

/-- A complete hardware plugin document (`HardwarePluginConfig`);
`specificDefaults` is a Go map keyed by board label. -/
structure HardwarePluginConfig where
  pluginInfo : PluginInfo
  specificDefaults : List (String × SpecificDefaultEntry)
  behaviorNotes : String
deriving DecidableEq, Repr

/-- The plugin registry held by `PluginManager`: plugins keyed by name. -/
abbrev Registry := List (String × HardwarePluginConfig)

/-! ## Format validators (`types.go`) -/

/-- Hexadecimal digit as accepted by the `[0-9a-fA-F]` character class. -/
def isHexDigitChar (c : Char) : Bool :=
  c.isDigit || ('a' ≤ c && c ≤ 'f') || ('A' ≤ c && c ≤ 'F')

/-- Matches the regex `^0[xX][0-9a-fA-F]+$`. -/
def isHexClockID : List Char → Bool
  | '0' :: x :: rest =>
    (x = 'x' || x = 'X') && !rest.isEmpty && rest.all isHexDigitChar
  | _ => false

/-- Matches the regex `^[0-9]+$`. -/
def isDecClockID (l : List Char) : Bool :=
  !l.isEmpty && l.all Char.isDigit

/-- Clock-ID format check used by `ValidateClockID`. -/
def validClockID (s : String) : Bool :=
  isHexClockID s.toList || isDecClockID s.toList

/-- `ValidateClockID`: `none` on success, an error message otherwise. -/
def validateClockID (s : String) : Option String :=
  if validClockID s then none
  else some ("invalid clock ID format: " ++ s ++ " (must be decimal or hex)")

/-- Matches the regex `^[a-zA-Z0-9_-]+$` used by `ValidateAlphanumDash`. -/
def validAlphanumDash (s : String) : Bool :=
  !s.toList.isEmpty && s.toList.all (fun c => c.isAlphanum || c = '-' || c = '_')

/-- `ValidateAlphanumDash`: `none` on success, an error otherwise. -/
def validateAlphanumDash (s : String) : Option String :=
  if validAlphanumDash s then none
  else some ("value must contain only alphanumeric characters, dashes, and underscores: " ++ s)

/-! ## Alias resolver (`types.go`) -/

/-- One step of `BuildClockAliasMap`: validates and inserts the alias
entries in order, failing fast. -/
def buildAliasEntries : List (String × String) → List ClockIdentifier →
    Except String (List (String × String))
  | acc, [] => .ok acc
  | acc, ident :: rest =>
    if ident.aliasName = "" then
      .error "clockIdentifiers: alias must not be empty"
    else
      match validateAlphanumDash ident.aliasName with
      | some e => .error ("clockIdentifiers: invalid alias " ++ ident.aliasName ++ ": " ++ e)
      | none =>
        match validateClockID ident.clockID with
        | some e =>
          .error ("clockIdentifiers: alias " ++ ident.aliasName ++ " has invalid clockId: " ++ e)
        | none =>
          if (alookup acc ident.aliasName).isSome then
            .error ("clockIdentifiers: duplicate alias " ++ ident.aliasName)
          else
            buildAliasEntries (acc ++ [(ident.aliasName, ident.clockID)]) rest

/-- `BuildClockAliasMap`: alias-to-clock-ID table from the document. -/
def buildClockAliasMap (cc : ClockChain) : Except String (List (String × String)) :=
  match cc.commonDefinitions with
  | none => .ok []
  | some cd => buildAliasEntries [] cd.clockIdentifiers

/-- `resolveClockIDValue`: empty and already-valid values pass through,
otherwise the alias table is consulted. -/
def resolveClockIDValue (value : String) (m : List (String × String)) :
    Except String String :=
  if value = "" then .ok value
  else if validClockID value then .ok value
  else
    match alookup m value with
    | some r => .ok r
    | none => .error ("value " ++ value ++ " is neither a valid clock ID nor a known alias")

/-- The DPLL clock-ID loop of `ResolveClockAliases`: rewrites subsystems
in order; on failure the already-rewritten prefix is kept and the rest
is returned untouched, mirroring in-place mutation with early return. -/
def resolveStructureList (m : List (String × String)) (i : Nat) :
    List Subsystem → List Subsystem × Option String
  | [] => ([], none)
  | s :: rest =>
    if s.dpll.clockID = "" then
      let r := resolveStructureList m (i + 1) rest
      (s :: r.1, r.2)
    else
      match resolveClockIDValue s.dpll.clockID m with
      | .error e => (s :: rest, some ("structure[" ++ toString i ++ "] DPLL.clockId: " ++ e))
      | .ok v =>
        let s' := { s with dpll := { s.dpll with clockID := v } }
        let r := resolveStructureList m (i + 1) rest
        (s' :: r.1, r.2)

/-- The source clock-ID loop of `ResolveClockAliases`. -/
def resolveSourcesList (m : List (String × String)) (i : Nat) :
    List SourceConfig → List SourceConfig × Option String
  | [] => ([], none)
  | src :: rest =>
    match resolveClockIDValue src.clockID m with
    | .error e => (src :: rest, some ("behavior.sources[" ++ toString i ++ "].clockId: " ++ e))
    | .ok v =>
      let r := resolveSourcesList m (i + 1) rest
      ({ src with clockID := v } :: r.1, r.2)

/-- The desired-state clock-ID loop of `ResolveClockAliases` for one
condition. -/
def resolveDesiredList (m : List (String × String)) (ci di : Nat) :
    List DesiredState → List DesiredState × Option String
  | [] => ([], none)
  | ds :: rest =>
    match resolveClockIDValue ds.clockID m with
    | .error e =>
      (ds :: rest,
        some ("behavior.conditions[" ++ toString ci ++ "].desiredStates[" ++ toString di
          ++ "].clockId: " ++ e))
    | .ok v =>
      let r := resolveDesiredList m ci (di + 1) rest
      ({ ds with clockID := v } :: r.1, r.2)

/-- The condition loop of `ResolveClockAliases`. -/
def resolveCondsList (m : List (String × String)) (ci : Nat) :
    List Condition → List Condition × Option String
  | [] => ([], none)
  | c :: rest =>
    let r := resolveDesiredList m ci 0 c.desiredStates
    let c' := { c with desiredStates := r.1 }
    match r.2 with
    | some e => (c' :: rest, some e)
    | none =>
      let r' := resolveCondsList m (ci + 1) rest
      (c' :: r'.1, r'.2)

/-- `ResolveClockAliases`: returns the document state after the call
together with the error, if any (the Go method mutates in place and can
leave a partially rewritten document behind on failure). -/
def resolveClockAliases (cc : ClockChain) : ClockChain × Option String :=
  match buildClockAliasMap cc with
  | .error e => (cc, some e)
  | .ok m =>
    let rs := resolveStructureList m 0 cc.chainStructure
    match rs.2 with
    | some e => ({ cc with chainStructure := rs.1 }, some e)
    | none =>
      let cc1 := { cc with chainStructure := rs.1 }
      match cc.behavior with
      | none => (cc1, none)
      | some b =>
        let rsrc := resolveSourcesList m 0 b.sources
        match rsrc.2 with
        | some e => ({ cc1 with behavior := some { b with sources := rsrc.1 } }, some e)
        | none =>
          let rc := resolveCondsList m 0 b.conditions
          ({ cc1 with behavior := some { b with sources := rsrc.1, conditions := rc.1 } }, rc.2)

/-! ## Validator (`types.go`) -/

/-- `PinConfig.Validate`: mutual exclusivity and connector format. -/
def validatePinConfig (pc : PinConfig) : Option String :=
  if pc.frequency.isSome && pc.syncTechnologyConfigName ≠ "" then
    some "frequency and syncTechnologyConfigName are mutually exclusive"
  else if pc.connector ≠ "" then
    match validateAlphanumDash pc.connector with
    | some e => some ("invalid connector format: " ++ e)
    | none => none
  else none

/-- `SourceConfig.Validate`. -/
def validateSourceConfig (sc : SourceConfig) : Option String :=
  match validateClockID sc.clockID with
  | some e => some ("invalid clock ID: " ++ e)
  | none =>
    if sc.sourceType = "ptpTimeReceiver" && sc.ptpTimeReceivers.isEmpty then
      some "ptpTimeReceivers must be specified when sourceType is ptpTimeReceiver"
    else
      firstErr
        (fun r =>
          match validateAlphanumDash r with
          | some e => some ("invalid PTP time receiver format: " ++ e)
          | none => none)
        sc.ptpTimeReceivers

/-- First error among a list of names: empty name, then duplicate
(models the eSync / ref-sync definition name loops). -/
def firstNameError (emptyMsg dupMsg : String) : List String → List String → Option String
  | _, [] => none
  | seen, n :: rest =>
    if n = "" then some emptyMsg
    else if seen.contains n then some (dupMsg ++ n)
    else firstNameError emptyMsg dupMsg (seen ++ [n]) rest

/-- The `allPinConfigs` map of `Validate`: phase inputs, phase outputs,
frequency inputs and then frequency outputs are written into one map, a
later write overwriting an earlier one for the same board label. -/
def buildAllPins (d : DPLL) : List (String × PinConfig) :=
  (d.phaseInputs ++ d.phaseOutputs ++ d.frequencyInputs ++ d.frequencyOutputs).foldl
    (fun m e => assocSet m e.1 e.2) []

/-- Board labels of the subsystem's phase pins (inputs and outputs). -/
def phaseLabelsOf (d : DPLL) : List String :=
  d.phaseInputs.map Prod.fst ++ d.phaseOutputs.map Prod.fst

/-- The `referenceSync` legality check of `Validate` for one pin. -/
def refSyncCheck (subName : String) (phaseLabels freqInLabels freqOutLabels : List String)
    (label : String) (config : PinConfig) : Option String :=
  if config.referenceSync ≠ "" then
    if !freqInLabels.contains label then
      if freqOutLabels.contains label then
        some ("referenceSync is not supported on frequency output pin " ++ label
          ++ " in subsystem " ++ subName)
      else
        some ("referenceSync specified on non-frequency-input pin " ++ label
          ++ " in subsystem " ++ subName)
    else if !phaseLabels.contains config.referenceSync then
      some ("referenceSync " ++ config.referenceSync ++ " not found among phase pins in subsystem "
        ++ subName ++ " (referenced by " ++ label ++ ")")
    else none
  else none

/-- The per-pin body of the `allPinConfigs` loop in `Validate`. -/
def pinCheck (esyncNames refsyncNames : List String) (subName : String)
    (phaseLabels freqInLabels freqOutLabels : List String)
    (label : String) (config : PinConfig) : Option String :=
  match validatePinConfig config with
  | some e => some ("invalid pin config " ++ label ++ " in subsystem " ++ subName ++ ": " ++ e)
  | none =>
    if config.syncTechnologyConfigName ≠ ""
        && !esyncNames.contains config.syncTechnologyConfigName
        && !refsyncNames.contains config.syncTechnologyConfigName then
      some ("referenced sync technology config " ++ config.syncTechnologyConfigName
        ++ " not found in subsystem " ++ subName ++ ", pin " ++ label)
    else refSyncCheck subName phaseLabels freqInLabels freqOutLabels label config

/-- The DPLL clock-ID format check of `Validate` for one subsystem. -/
def subsystemClockIDErr (sub : Subsystem) : Option String :=
  if sub.dpll.clockID ≠ "" then
    (validateClockID sub.dpll.clockID).map
      (fun e => "invalid clock ID in subsystem " ++ sub.name ++ ": " ++ e)
  else none

/-- The per-subsystem body of `Validate`. -/
def validateSubsystem (esyncNames refsyncNames : List String) (sub : Subsystem) :
    Option String :=
  match subsystemClockIDErr sub with
  | some e => some e
  | none =>
    firstErr
      (fun p =>
        pinCheck esyncNames refsyncNames sub.name (phaseLabelsOf sub.dpll)
          (sub.dpll.frequencyInputs.map Prod.fst) (sub.dpll.frequencyOutputs.map Prod.fst)
          p.1 p.2)
      (buildAllPins sub.dpll)

/-- The source loop of `Validate`: per-source validation then duplicate
names, fail-fast. -/
def firstSourceError : List String → List SourceConfig → Option String
  | _, [] => none
  | seen, src :: rest =>
    match validateSourceConfig src with
    | some e => some ("invalid source " ++ src.name ++ ": " ++ e)
    | none =>
      if seen.contains src.name then some ("duplicate source name: " ++ src.name)
      else firstSourceError (seen ++ [src.name]) rest

/-- The behavior section of `Validate`. -/
def validateBehavior (b : Behavior) : Option String :=
  match firstSourceError [] b.sources with
  | some e => some e
  | none =>
    let sourceNames := b.sources.map (fun s => s.name)
    firstErr
      (fun cond =>
        match
          firstErr
            (fun ss =>
              if ss.sourceName ≠ "Default on profile (re)load"
                  && !sourceNames.contains ss.sourceName then
                some ("referenced source " ++ ss.sourceName ++ " not found in condition "
                  ++ cond.name)
              else none)
            cond.sources
        with
        | some e => some e
        | none =>
          firstErr
            (fun ds =>
              if ds.clockID ≠ "" then
                (validateClockID ds.clockID).map
                  (fun e => "invalid clock ID in desired state: " ++ e)
              else none)
            cond.desiredStates)
      b.conditions

/-- The eSync definition names collected by `Validate`. -/
def esyncNamesOf (cc : ClockChain) : List String :=
  match cc.commonDefinitions with
  | none => []
  | some cd => cd.eSyncDefinitions.map (fun e => e.name)

/-- The ref-sync definition names collected by `Validate`. -/
def refsyncNamesOf (cc : ClockChain) : List String :=
  match cc.commonDefinitions with
  | none => []
  | some cd => cd.refSyncDefinitions.map (fun e => e.name)

/-- The common-definitions name checks of `Validate`. -/
def commonDefsErr (cc : ClockChain) : Option String :=
  match cc.commonDefinitions with
  | none => none
  | some cd =>
    match
      firstNameError "eSync definition name must not be empty"
        "duplicate eSync definition name: " [] (cd.eSyncDefinitions.map (fun e => e.name))
    with
    | some e => some e
    | none =>
      firstNameError "refSync definition name must not be empty"
        "duplicate refSync definition name: " [] (cd.refSyncDefinitions.map (fun e => e.name))

/-- `ClockChain.Validate`: fail-fast, first violation wins. -/
def validate (cc : ClockChain) : Option String :=
  if cc.chainStructure.isEmpty then some "structure must contain at least one subsystem"
  else
    match commonDefsErr cc with
    | some e => some e
    | none =>
      match firstErr (validateSubsystem (esyncNamesOf cc) (refsyncNamesOf cc))
          cc.chainStructure with
      | some e => some e
      | none =>
        match cc.behavior with
        | none => none
        | some b => validateBehavior b

/-! ## Plugin registry loading (`plugin_manager.go`) -/

/-- A directory entry as seen by `LoadPlugins`.  Reading and YAML
decoding of the file are external collaborators, so each entry carries
the outcome of decoding it as a `HardwarePluginConfig`. -/
structure FileEntry where
  name : String
  isDir : Bool
  parsed : Except String HardwarePluginConfig
deriving Repr

/-- The plugins directory as seen by `LoadPlugins`: missing, unreadable,
or a list of entries in directory-listing order. -/
inductive DirState where
  | notExist : DirState
  | readFailure (msg : String) : DirState
  | files (entries : List FileEntry) : DirState
deriving Repr

/-- Scans reversed characters; mirrors `filepath.Ext`, which returns the
suffix beginning at the final dot (empty if there is no dot). -/
def extOfAux : List Char → String → String
  | [], acc => acc
  | '.' :: rest, _ => extOfAux rest (String.mk ('.' :: rest))
  | _ :: rest, acc => extOfAux rest acc

/-- `filepath.Ext` on a bare file name. -/
def extOf (name : String) : String := extOfAux name.toList ""

/-- A directory entry is loaded iff it is a non-directory with a
`.yaml` / `.yml` extension. -/
def eligibleFile (f : FileEntry) : Bool :=
  !f.isDir && (extOf f.name = ".yaml" || extOf f.name = ".yml")

/-- The file loop of `LoadPlugins` together with `LoadPlugin`: each
eligible file is decoded, rejected when decoding fails or the plugin
name is empty, and otherwise stored keyed by its name. -/
def loadPluginFold (acc : Registry) : List FileEntry → Except String Registry
  | [] => .ok acc
  | f :: rest =>
    if eligibleFile f then
      match f.parsed with
      | .error e => .error ("failed to load plugin " ++ f.name ++ ": " ++ e)
      | .ok plugin =>
        if plugin.pluginInfo.name = "" then
          .error ("failed to load plugin " ++ f.name ++ ": plugin must have a name")
        else loadPluginFold (assocSet acc plugin.pluginInfo.name plugin) rest
    else loadPluginFold acc rest

/-- `LoadPlugins`: a missing directory yields an empty registry; a read
failure or a bad plugin file fails the whole load. -/
def loadPlugins (dir : DirState) : Except String Registry :=
  match dir with
  | .notExist => .ok []
  | .readFailure e => .error ("failed to read plugins directory: " ++ e)
  | .files l => loadPluginFold [] l

/-! ## Default merge engine (`plugin_manager.go`) -/

/-- The merge key `clockID + ":" + boardLabel`. -/
def keyOf (clockID boardLabel : String) : String := clockID ++ ":" ++ boardLabel

/-- Merge key of a desired-state entry. -/
def keyDS (ds : DesiredState) : String := keyOf ds.clockID ds.boardLabel

/-- Builds the `existingStates` lookup: every entry is registered under
its merge key in index order, a later entry overwriting an earlier one
with the same key; bindings are prepended so `alookup` finds the most
recent (largest) index. -/
def buildIndexAux (i : Nat) (acc : List (String × Nat)) :
    List DesiredState → List (String × Nat)
  | [] => acc
  | ds :: rest => buildIndexAux (i + 1) ((keyDS ds, i) :: acc) rest

/-- The `existingStates` map for a desired-state list. -/
def buildIndex (states : List DesiredState) : List (String × Nat) :=
  buildIndexAux 0 [] states

/-- Converts a plugin pin default into a `PinState`. -/
def mkPinState (d : PluginPinDefaults) : PinState :=
  { priority := d.priority, state := d.state }

/-- The overlay half of `applySubsystemDefaults`: fills EEC and PPS
independently when the existing entry leaves the sub-field absent and
the plugin declares a default for it. -/
def fillDS (d : SpecificDefaultEntry) (ds : DesiredState) : DesiredState :=
  let ds1 :=
    if ds.eec.isNone && d.eec.isSome then { ds with eec := d.eec.map mkPinState } else ds
  if ds1.pps.isNone && d.pps.isSome then { ds1 with pps := d.pps.map mkPinState } else ds1

/-- The fresh entry constructed for an uncovered merge key. -/
def mkNewDS (clockID label : String) (d : SpecificDefaultEntry) : DesiredState :=
  { clockID := clockID, boardLabel := label,
    eec := d.eec.map mkPinState, pps := d.pps.map mkPinState }

/-- The desired-state list under construction together with the
`existingStates` lookup. -/
structure MergeState where
  states : List DesiredState
  idx : List (String × Nat)
deriving Repr

/-- The body of the `plugin.SpecificDefaults` loop of
`applySubsystemDefaults` for one board label. -/
def processLabel (clockID : String) (st : MergeState)
    (entry : String × SpecificDefaultEntry) : MergeState :=
  let key := keyOf clockID entry.1
  match alookup st.idx key with
  | some i => { st with states := modifyAt (fillDS entry.2) i st.states }
  | none =>
    let n := mkNewDS clockID entry.1 entry.2
    if n.eec.isSome || n.pps.isSome then
      { states := st.states ++ [n], idx := (key, st.states.length) :: st.idx }
    else st

/-- The per-subsystem body of `ApplyPluginDefaults`: subsystems without
a plugin reference, or whose plugin is not registered, are skipped. -/
def processSubsystem (pm : Registry) (st : MergeState) (sub : Subsystem) : MergeState :=
  if sub.hardwarePlugin = "" then st
  else
    match alookup pm sub.hardwarePlugin with
    | none => st
    | some plugin => plugin.specificDefaults.foldl (processLabel sub.dpll.clockID) st

/-- Whether a condition's first source state has type `"default"`. -/
def isDefaultCond (c : Condition) : Bool :=
  match c.sources with
  | [] => false
  | s :: _ => s.conditionType = "default"

/-- `ApplyPluginDefaults` for one condition (it never fails: its only
error path re-raises an error `applySubsystemDefaults` cannot produce). -/
def applyCondP (pm : Registry) (structs : List Subsystem) (c : Condition) : Condition :=
  if isDefaultCond c then
    let st0 : MergeState := { states := c.desiredStates, idx := buildIndex c.desiredStates }
    let st1 := structs.foldl (processSubsystem pm) st0
    { c with desiredStates := st1.states }
  else c

/-- The synthesized default condition of `MergeUserConfigWithDefaults`. -/
def defaultCondition : Condition :=
  { name := "Default Configuration (Auto-generated)",
    sources := [{ sourceName := "Default on profile (re)load", conditionType := "default" }],
    desiredStates := [] }

/-- Whether some condition's first source state has type `"default"`. -/
def hasDefaultCondition (conds : List Condition) : Bool :=
  conds.any isDefaultCond

/-- The error-propagating per-subsystem loop of `ApplyPluginDefaults`
(`applySubsystemDefaults` ends in `return nil`, so the error branch of
the caller wraps an error that never arises). -/
def applyCondLoop (pm : Registry) : MergeState → List Subsystem →
    MergeState × Option String
  | st, [] => (st, none)
  | st, sub :: rest =>
    let step : MergeState × Option String := (processSubsystem pm st sub, none)
    match step.2 with
    | some e =>
      (step.1, some ("failed to apply defaults for subsystem " ++ sub.name ++ ": " ++ e))
    | none => applyCondLoop pm step.1 rest

/-- `ApplyPluginDefaults` with its error channel. -/
def applyPluginDefaults (pm : Registry) (structs : List Subsystem) (c : Condition) :
    Condition × Option String :=
  if isDefaultCond c then
    let st0 : MergeState := { states := c.desiredStates, idx := buildIndex c.desiredStates }
    let r := applyCondLoop pm st0 structs
    ({ c with desiredStates := r.1.states }, r.2)
  else (c, none)

/-- The condition loop of `MergeUserConfigWithDefaults`, fail-fast. -/
def mergeCondsLoop (pm : Registry) (structs : List Subsystem) :
    List Condition → List Condition × Option String
  | [] => ([], none)
  | c :: rest =>
    let r := applyPluginDefaults pm structs c
    match r.2 with
    | some e =>
      (r.1 :: rest,
        some ("failed to apply plugin defaults to condition " ++ c.name ++ ": " ++ e))
    | none =>
      let r' := mergeCondsLoop pm structs rest
      (r.1 :: r'.1, r'.2)

/-- `MergeUserConfigWithDefaults`: synthesizes a default condition when
none exists, then applies plugin defaults to every condition.  Returns
the final document state and the error, if any. -/
def mergeUserConfigWithDefaults (pm : Registry) (cc : ClockChain) :
    ClockChain × Option String :=
  match cc.behavior with
  | none => (cc, none)
  | some b =>
    let conds0 :=
      if hasDefaultCondition b.conditions then b.conditions
      else defaultCondition :: b.conditions
    let r := mergeCondsLoop pm cc.chainStructure conds0
    ({ cc with behavior := some { b with conditions := r.1 } }, r.2)

/-! ## Helper lemmas -/

theorem firstErr_eq_none {α : Type} (f : α → Option String) (l : List α) :
    firstErr f l = none ↔ ∀ x ∈ l, f x = none := by
  induction l with
  | nil => simp [firstErr]
  | cons x rest ih =>
    constructor
    · intro h y hy
      cases hfx : f x with
      | some e => simp [firstErr, hfx] at h
      | none =>
        rcases List.mem_cons.mp hy with rfl | hmem
        · exact hfx
        · exact (ih.mp (by simpa [firstErr, hfx] using h)) y hmem
    · intro h
      have hx := h x (List.mem_cons_self x rest)
      simp only [firstErr, hx]
      exact ih.mpr fun y hy => h y (List.mem_cons_of_mem x hy)

theorem alookup_append {β : Type} : ∀ (a : List (String × β)) (b : List (String × β))
    (k : String), alookup (a ++ b) k =
      match alookup a k with
      | some v => some v
      | none => alookup b k
  | [], b, k => by simp [alookup]
  | (x, y) :: rest, b, k => by
    by_cases hx : x = k
    · simp [alookup, hx]
    · simp only [List.cons_append, alookup, if_neg hx]
      exact alookup_append rest b k

theorem alookup_eq_some_mem {β : Type} : ∀ {l : List (String × β)} {k : String} {v : β},
    alookup l k = some v → (k, v) ∈ l
  | [], _, _, h => by simp [alookup] at h
  | (a, b) :: rest, k, v, h => by
    by_cases ha : a = k
    · subst ha
      simp only [alookup, if_pos rfl] at h
      injection h with h'
      subst h'
      exact List.mem_cons_self _ _
    · simp only [alookup, if_neg ha] at h
      exact List.mem_cons_of_mem _ (alookup_eq_some_mem h)

theorem alookup_eq_none_iff {β : Type} : ∀ (l : List (String × β)) (k : String),
    alookup l k = none ↔ ∀ v, (k, v) ∉ l
  | [], k => by simp [alookup]
  | (a, b) :: rest, k => by
    by_cases ha : a = k
    · subst ha
      simp only [alookup, if_pos rfl]
      constructor
      · intro h
        exact absurd h (by simp)
      · intro h
        exact absurd (List.mem_cons_self _ _) (h b)
    · simp only [alookup, if_neg ha]
      rw [alookup_eq_none_iff rest k]
      constructor
      · intro h v hv
        rcases List.mem_cons.mp hv with hv | hv
        · exact ha (congrArg Prod.fst hv).symm
        · exact h v hv
      · intro h v hv
        exact h v (List.mem_cons_of_mem _ hv)

theorem alookup_of_mem_nodup {β : Type} : ∀ {l : List (String × β)} {k : String} {v : β},
    (l.map Prod.fst).Nodup → (k, v) ∈ l → alookup l k = some v
  | [], _, _, _, hmem => by simp at hmem
  | (a, b) :: rest, k, v, hnd, hmem => by
    rcases List.mem_cons.mp hmem with heq | hmem'
    · rw [show a = k from (congrArg Prod.fst heq).symm,
        show b = v from (congrArg Prod.snd heq).symm]
      simp [alookup]
    · have ha : a ≠ k := by
        intro hk
        subst hk
        have hin : a ∈ rest.map Prod.fst := List.mem_map.mpr ⟨(a, v), hmem', rfl⟩
        rw [List.map_cons] at hnd
        exact (List.nodup_cons.mp hnd).1 hin
      simp only [alookup, if_neg ha]
      exact alookup_of_mem_nodup (List.nodup_cons.mp (by rwa [List.map_cons] at hnd)).2 hmem'

theorem alookup_assocSet_self {β : Type} : ∀ (m : List (String × β)) (k : String) (v : β),
    alookup (assocSet m k v) k = some v
  | [], k, v => by simp [assocSet, alookup]
  | (a, b) :: rest, k, v => by
    by_cases ha : a = k
    · simp [assocSet, ha, alookup]
    · simp only [assocSet, if_neg ha, alookup, if_neg ha]
      exact alookup_assocSet_self rest k v

theorem alookup_assocSet_ne {β : Type} : ∀ (m : List (String × β)) (k k' : String) (v : β),
    k' ≠ k → alookup (assocSet m k v) k' = alookup m k'
  | [], k, k', v, h => by simp [assocSet, alookup, Ne.symm h]
  | (a, b) :: rest, k, k', v, h => by
    by_cases ha : a = k
    · subst ha
      simp [assocSet, alookup, Ne.symm h]
    · by_cases hak : a = k'
      · simp [assocSet, if_neg ha, alookup, hak, h]
      · simp only [assocSet, if_neg ha, alookup, if_neg hak]
        exact alookup_assocSet_ne rest k k' v h

theorem foldl_assocSet_lookup {β : Type} (l : List (String × β)) (m : List (String × β))
    (k : String) :
    alookup (l.foldl (fun m e => assocSet m e.1 e.2) m) k =
      match alookup l.reverse k with
      | some v => some v
      | none => alookup m k := by
  induction l generalizing m with
  | nil => simp [alookup]
  | cons e rest ih =>
    rw [List.foldl_cons, ih, List.reverse_cons, alookup_append]
    by_cases hk : e.1 = k
    · subst hk
      cases halt : alookup rest.reverse e.1 with
      | some v => simp
      | none => simp [alookup, alookup_assocSet_self]
    · cases halt : alookup rest.reverse k with
      | some v => simp
      | none => simp [alookup, hk, alookup_assocSet_ne m e.1 k e.2 (fun h => hk h.symm)]

theorem get?_modifyAt_self {α : Type} (f : α → α) (i : Nat) (l : List α) :
    (modifyAt f i l).get? i = (l.get? i).map f := by
  induction l generalizing i with
  | nil => cases i <;> simp [modifyAt]
  | cons a rest ih =>
    cases i with
    | zero => simp [modifyAt]
    | succ n => simpa [modifyAt] using ih n

theorem get?_modifyAt_ne {α : Type} (f : α → α) (i j : Nat) (l : List α) (h : j ≠ i) :
    (modifyAt f i l).get? j = l.get? j := by
  induction l generalizing i j with
  | nil => cases i <;> simp [modifyAt]
  | cons a rest ih =>
    cases i with
    | zero =>
      cases j with
      | zero => exact absurd rfl h
      | succ m => simp [modifyAt]
    | succ n =>
      cases j with
      | zero => simp [modifyAt]
      | succ m => simpa [modifyAt] using ih n m (fun hnm => h (by rw [hnm]))

theorem modifyAt_eq_self_of_get? {α : Type} {f : α → α} {i : Nat} {l : List α} {e : α}
    (hget : l.get? i = some e) (hfe : f e = e) : modifyAt f i l = l := by
  induction l generalizing i with
  | nil => simp at hget
  | cons a rest ih =>
    cases i with
    | zero =>
      simp only [List.get?] at hget
      injection hget with hget
      subst hget
      simp [modifyAt, hfe]
    | succ n =>
      simp only [List.get?] at hget
      simp [modifyAt, ih hget]

theorem modifyAt_eq_self_of_id {α : Type} {f : α → α} (hf : ∀ a, f a = a) (i : Nat)
    (l : List α) : modifyAt f i l = l := by
  induction l generalizing i with
  | nil => cases i <;> rfl
  | cons a rest ih =>
    cases i with
    | zero => simp [modifyAt, hf]
    | succ n => simp [modifyAt, ih]

theorem mem_modifyAt {α : Type} {f : α → α} {i : Nat} {l : List α} {e : α}
    (h : e ∈ modifyAt f i l) : e ∈ l ∨ ∃ e' ∈ l, e = f e' := by
  induction l generalizing i with
  | nil =>
    cases i <;> simp [modifyAt] at h
  | cons a rest ih =>
    cases i with
    | zero =>
      rcases List.mem_cons.mp h with rfl | hmem
      · exact Or.inr ⟨a, List.mem_cons_self a rest, rfl⟩
      · exact Or.inl (List.mem_cons_of_mem a hmem)
    | succ n =>
      rcases List.mem_cons.mp h with rfl | hmem
      · exact Or.inl (List.mem_cons_self e rest)
      · rcases ih hmem with h1 | ⟨e', he', rfl⟩
        · exact Or.inl (List.mem_cons_of_mem a h1)
        · exact Or.inr ⟨e', List.mem_cons_of_mem a he', rfl⟩

/-! ## Lemmas about the merge-engine lookup -/

theorem buildIndexAux_append (n : Nat) (acc : List (String × Nat)) (S : List DesiredState)
    (e : DesiredState) :
    buildIndexAux n acc (S ++ [e]) = (keyDS e, n + S.length) :: buildIndexAux n acc S := by
  induction S generalizing n acc with
  | nil => simp [buildIndexAux]
  | cons s rest ih =>
    simp only [List.cons_append, buildIndexAux]
    rw [show rest.append [e] = rest ++ [e] from rfl, ih]
    simp only [List.length_cons]
    congr 2
    omega

theorem buildIndex_append (S : List DesiredState) (e : DesiredState) :
    buildIndex (S ++ [e]) = (keyDS e, S.length) :: buildIndex S := by
  simpa [buildIndex] using buildIndexAux_append 0 [] S e

theorem buildIndexAux_modifyAt {f : DesiredState → DesiredState}
    (hf : ∀ x, keyDS (f x) = keyDS x) (n : Nat) (acc : List (String × Nat)) (i : Nat)
    (S : List DesiredState) :
    buildIndexAux n acc (modifyAt f i S) = buildIndexAux n acc S := by
  induction S generalizing n acc i with
  | nil => cases i <;> rfl
  | cons s rest ih =>
    cases i with
    | zero => simp [modifyAt, buildIndexAux, hf]
    | succ m => simp [modifyAt, buildIndexAux, ih]

theorem buildIndex_modifyAt {f : DesiredState → DesiredState}
    (hf : ∀ x, keyDS (f x) = keyDS x) (i : Nat) (S : List DesiredState) :
    buildIndex (modifyAt f i S) = buildIndex S :=
  buildIndexAux_modifyAt hf 0 [] i S

theorem lookup_buildIndexAux_some {k : String} {i : Nat} :
    ∀ (S : List DesiredState) (n : Nat) (acc : List (String × Nat)),
    alookup (buildIndexAux n acc S) k = some i →
    (∃ j e, S.get? j = some e ∧ keyDS e = k ∧ i = n + j) ∨ alookup acc k = some i
  | [], n, acc, h => Or.inr h
  | s :: rest, n, acc, h => by
    rcases lookup_buildIndexAux_some rest (n + 1)
        ((keyDS s, n) :: acc) h with ⟨j, e, hget, hkey, hi⟩ | hacc
    · exact Or.inl ⟨j + 1, e, by simpa using hget, hkey, by omega⟩
    · by_cases hk : keyDS s = k
      · simp only [alookup, if_pos hk] at hacc
        injection hacc with hacc
        exact Or.inl ⟨0, s, by simp, hk, by omega⟩
      · simp only [alookup, if_neg hk] at hacc
        exact Or.inr hacc

theorem lookup_buildIndex_some {S : List DesiredState} {k : String} {i : Nat}
    (h : alookup (buildIndex S) k = some i) :
    ∃ e, S.get? i = some e ∧ keyDS e = k := by
  rcases lookup_buildIndexAux_some S 0 [] h with
    ⟨j, e, hget, hkey, hi⟩ | hacc
  · exact ⟨e, by simpa [hi] using hget, hkey⟩
  · simp [alookup] at hacc

theorem lookup_buildIndexAux_none {k : String} :
    ∀ (S : List DesiredState) (n : Nat) (acc : List (String × Nat)),
    alookup (buildIndexAux n acc S) k = none →
    (∀ e ∈ S, keyDS e ≠ k) ∧ alookup acc k = none
  | [], n, acc, h => ⟨by simp, h⟩
  | s :: rest, n, acc, h => by
    obtain ⟨hrest, hacc⟩ :=
      lookup_buildIndexAux_none rest (n + 1) ((keyDS s, n) :: acc) h
    by_cases hk : keyDS s = k
    · simp [alookup, hk] at hacc
    · simp only [alookup, if_neg hk] at hacc
      refine ⟨?_, hacc⟩
      intro e he
      rcases List.mem_cons.mp he with rfl | he'
      · exact hk
      · exact hrest e he'

theorem lookup_buildIndex_none {S : List DesiredState} {k : String}
    (h : alookup (buildIndex S) k = none) : ∀ e ∈ S, keyDS e ≠ k :=
  (lookup_buildIndexAux_none S 0 [] h).1

/-! ## Lemmas about `fillDS` -/

theorem fillDS_clockID (d : SpecificDefaultEntry) (ds : DesiredState) :
    (fillDS d ds).clockID = ds.clockID := by
  simp only [fillDS]
  split <;> split <;> rfl

theorem fillDS_boardLabel (d : SpecificDefaultEntry) (ds : DesiredState) :
    (fillDS d ds).boardLabel = ds.boardLabel := by
  simp only [fillDS]
  split <;> split <;> rfl

theorem keyDS_fillDS (d : SpecificDefaultEntry) (ds : DesiredState) :
    keyDS (fillDS d ds) = keyDS ds := by
  simp [keyDS, fillDS_clockID, fillDS_boardLabel]

theorem fillDS_eec_eq_some {d : SpecificDefaultEntry} {ds : DesiredState} {x : PinState}
    (h : ds.eec = some x) : (fillDS d ds).eec = some x := by
  simp only [fillDS]
  split
  · rename_i hcond
    rw [h] at hcond
    simp at hcond
  · split <;> simp [h]

theorem fillDS_pps_eq_some {d : SpecificDefaultEntry} {ds : DesiredState} {x : PinState}
    (h : ds.pps = some x) : (fillDS d ds).pps = some x := by
  simp only [fillDS]
  split <;> (try split) <;> simp_all

theorem fillDS_eec_isSome (d : SpecificDefaultEntry) (ds : DesiredState)
    (h : ds.eec.isSome = true) : (fillDS d ds).eec.isSome = true := by
  obtain ⟨x, hx⟩ := Option.isSome_iff_exists.mp h
  simp [fillDS_eec_eq_some hx]

theorem fillDS_pps_isSome (d : SpecificDefaultEntry) (ds : DesiredState)
    (h : ds.pps.isSome = true) : (fillDS d ds).pps.isSome = true := by
  obtain ⟨x, hx⟩ := Option.isSome_iff_exists.mp h
  simp [fillDS_pps_eq_some hx]

theorem fillDS_eec_isSome_of_default (d : SpecificDefaultEntry) (ds : DesiredState)
    (h : d.eec.isSome = true) : (fillDS d ds).eec.isSome = true := by
  cases he : ds.eec with
  | some x => exact fillDS_eec_isSome d ds (by simp [he])
  | none =>
    simp only [fillDS, he, Option.isNone_none, Bool.true_and, h, if_pos]
    split <;> simp [Option.isSome_map, h]

theorem fillDS_pps_isSome_of_default (d : SpecificDefaultEntry) (ds : DesiredState)
    (h : d.pps.isSome = true) : (fillDS d ds).pps.isSome = true := by
  by_cases hp : ds.pps.isSome = true
  · exact fillDS_pps_isSome d ds hp
  · have hn : ds.pps.isNone = true := by
      cases hds : ds.pps <;> simp_all
    simp only [fillDS]
    split <;> simp_all [Option.isSome_map]

theorem fillDS_eq_self {d : SpecificDefaultEntry} {ds : DesiredState}
    (he : d.eec.isSome = true → ds.eec.isSome = true)
    (hp : d.pps.isSome = true → ds.pps.isSome = true) : fillDS d ds = ds := by
  have h1 : (ds.eec.isNone && d.eec.isSome) = false := by
    cases hde : d.eec with
    | none => simp
    | some x =>
      have := he (by simp [hde])
      cases hds : ds.eec <;> simp_all
  have h2 : (ds.pps.isNone && d.pps.isSome) = false := by
    cases hdp : d.pps with
    | none => simp
    | some x =>
      have := hp (by simp [hdp])
      cases hds : ds.pps <;> simp_all
  simp [fillDS, h1, h2]

/-! ## The merge engine never fails: pure characterization -/

/-- The pure result of `MergeUserConfigWithDefaults` (the engine has no
failing path, see `mergeUserConfigWithDefaults_eq`). -/
def mergeP (pm : Registry) (cc : ClockChain) : ClockChain :=
  match cc.behavior with
  | none => cc
  | some b =>
    { cc with
      behavior := some
        { b with
          conditions :=
            (if hasDefaultCondition b.conditions then b.conditions
             else defaultCondition :: b.conditions).map (applyCondP pm cc.chainStructure) } }

theorem applyCondLoop_eq (pm : Registry) (structs : List Subsystem) (st : MergeState) :
    applyCondLoop pm st structs = (structs.foldl (processSubsystem pm) st, none) := by
  induction structs generalizing st with
  | nil => rfl
  | cons sub rest ih => simp [applyCondLoop, ih]

theorem applyPluginDefaults_eq (pm : Registry) (structs : List Subsystem) (c : Condition) :
    applyPluginDefaults pm structs c = (applyCondP pm structs c, none) := by
  by_cases h : isDefaultCond c
  · simp [applyPluginDefaults, applyCondP, h, applyCondLoop_eq]
  · simp [applyPluginDefaults, applyCondP, h]

theorem mergeCondsLoop_eq (pm : Registry) (structs : List Subsystem)
    (conds : List Condition) :
    mergeCondsLoop pm structs conds = (conds.map (applyCondP pm structs), none) := by
  induction conds with
  | nil => rfl
  | cons c rest ih => simp [mergeCondsLoop, applyPluginDefaults_eq, ih]

theorem mergeUserConfigWithDefaults_eq (pm : Registry) (cc : ClockChain) :
    mergeUserConfigWithDefaults pm cc = (mergeP pm cc, none) := by
  cases hb : cc.behavior with
  | none => simp [mergeUserConfigWithDefaults, mergeP, hb]
  | some b => simp [mergeUserConfigWithDefaults, mergeP, hb, mergeCondsLoop_eq]

/-! ## Basic facts about `applyCondP` -/

theorem applyCondP_sources (pm : Registry) (structs : List Subsystem) (c : Condition) :
    (applyCondP pm structs c).sources = c.sources := by
  by_cases h : isDefaultCond c <;> simp [applyCondP, h]

theorem applyCondP_name (pm : Registry) (structs : List Subsystem) (c : Condition) :
    (applyCondP pm structs c).name = c.name := by
  by_cases h : isDefaultCond c <;> simp [applyCondP, h]

theorem applyCondP_of_not_default {pm : Registry} {structs : List Subsystem} {c : Condition}
    (h : isDefaultCond c = false) : applyCondP pm structs c = c := by
  simp [applyCondP, h]

theorem isDefaultCond_applyCondP (pm : Registry) (structs : List Subsystem) (c : Condition) :
    isDefaultCond (applyCondP pm structs c) = isDefaultCond c := by
  simp [isDefaultCond, applyCondP_sources]

theorem applyCondP_desiredStates_of_default {pm : Registry} {structs : List Subsystem}
    {c : Condition} (h : isDefaultCond c = true) :
    (applyCondP pm structs c).desiredStates =
      (structs.foldl (processSubsystem pm)
        { states := c.desiredStates, idx := buildIndex c.desiredStates }).states := by
  simp [applyCondP, h]

theorem hasDefaultCondition_map_applyCondP (pm : Registry) (structs : List Subsystem)
    (conds : List Condition) :
    hasDefaultCondition (conds.map (applyCondP pm structs)) = hasDefaultCondition conds := by
  simp [hasDefaultCondition, List.any_map, Function.comp_def, isDefaultCond_applyCondP]

/-! ## Saturation:  a processed label leaves nothing more to do -/

/-- After a board label with some default has been processed for a clock
ID, the desired-state list contains an entry at its merge key whose EEC
and PPS are populated wherever the plugin declares a default. -/
def LD (cid label : String) (d : SpecificDefaultEntry) (S : List DesiredState) : Prop :=
  (d.eec.isSome || d.pps.isSome) = true →
    ∃ i e, alookup (buildIndex S) (keyOf cid label) = some i ∧ S.get? i = some e ∧
      (d.eec.isSome = true → e.eec.isSome = true) ∧
      (d.pps.isSome = true → e.pps.isSome = true)

/-- Saturation over every plugin-covered label of every subsystem. -/
def AllLD (pm : Registry) (structs : List Subsystem) (S : List DesiredState) : Prop :=
  ∀ sub ∈ structs, sub.hardwarePlugin ≠ "" →
    ∀ p, alookup pm sub.hardwarePlugin = some p →
      ∀ q ∈ p.specificDefaults, LD sub.dpll.clockID q.1 q.2 S

theorem keyDS_mkNewDS (cid label : String) (d : SpecificDefaultEntry) :
    keyDS (mkNewDS cid label d) = keyOf cid label := rfl

theorem processLabel_idx (cid : String) {st : MergeState}
    (hinv : st.idx = buildIndex st.states) (p : String × SpecificDefaultEntry) :
    (processLabel cid st p).idx = buildIndex (processLabel cid st p).states := by
  cases hl : alookup st.idx (keyOf cid p.1) with
  | some i =>
    simp only [processLabel, hl]
    rw [buildIndex_modifyAt (keyDS_fillDS p.2), hinv]
  | none =>
    by_cases hn : ((mkNewDS cid p.1 p.2).eec.isSome || (mkNewDS cid p.1 p.2).pps.isSome) = true
    · simp only [processLabel, hl, hn, if_pos]
      rw [buildIndex_append, keyDS_mkNewDS, hinv]
    · simp only [processLabel, hl, if_neg hn]
      exact hinv

theorem LD_processLabel {cid0 label0 : String} {d0 : SpecificDefaultEntry}
    {st : MergeState} (hinv : st.idx = buildIndex st.states)
    (h : LD cid0 label0 d0 st.states) (cid : String) (p : String × SpecificDefaultEntry) :
    LD cid0 label0 d0 (processLabel cid st p).states := by
  intro hd
  obtain ⟨i, e, hlk, hget, he, hp⟩ := h hd
  cases hl : alookup st.idx (keyOf cid p.1) with
  | some j =>
    simp only [processLabel, hl]
    rw [buildIndex_modifyAt (keyDS_fillDS p.2)]
    by_cases hij : i = j
    · subst hij
      refine ⟨i, fillDS p.2 e, hlk, ?_, ?_, ?_⟩
      · rw [get?_modifyAt_self, hget]
        rfl
      · exact fun hx => fillDS_eec_isSome p.2 e (he hx)
      · exact fun hx => fillDS_pps_isSome p.2 e (hp hx)
    · exact ⟨i, e, hlk, by rw [get?_modifyAt_ne _ _ _ _ hij, hget], he, hp⟩
  | none =>
    by_cases hn : ((mkNewDS cid p.1 p.2).eec.isSome || (mkNewDS cid p.1 p.2).pps.isSome) = true
    · simp only [processLabel, hl, hn, if_pos]
      have hkne : keyOf cid p.1 ≠ keyOf cid0 label0 := by
        intro hk
        rw [hinv, hk, hlk] at hl
        exact Option.noConfusion hl
      have hlt : i < st.states.length := (List.get?_eq_some.mp hget).1
      refine ⟨i, e, ?_, ?_, he, hp⟩
      · rw [buildIndex_append, keyDS_mkNewDS]
        simpa [alookup, hkne] using hlk
      · rw [List.get?_append hlt]
        exact hget
    · simpa only [processLabel, hl, if_neg hn] using ⟨i, e, hlk, hget, he, hp⟩

theorem LD_processLabel_self {cid : String} {st : MergeState}
    (hinv : st.idx = buildIndex st.states) (p : String × SpecificDefaultEntry) :
    LD cid p.1 p.2 (processLabel cid st p).states := by
  intro hd
  cases hl : alookup st.idx (keyOf cid p.1) with
  | some i =>
    obtain ⟨e, hget, hkey⟩ := lookup_buildIndex_some (hinv ▸ hl)
    simp only [processLabel, hl]
    rw [buildIndex_modifyAt (keyDS_fillDS p.2)]
    refine ⟨i, fillDS p.2 e, hinv ▸ hl, ?_, ?_, ?_⟩
    · rw [get?_modifyAt_self, hget]
      rfl
    · exact fun hx => fillDS_eec_isSome_of_default p.2 e hx
    · exact fun hx => fillDS_pps_isSome_of_default p.2 e hx
  | none =>
    have hn : ((mkNewDS cid p.1 p.2).eec.isSome || (mkNewDS cid p.1 p.2).pps.isSome) = true := by
      simpa [mkNewDS, Option.isSome_map] using hd
    simp only [processLabel, hl, hn, if_pos]
    refine ⟨st.states.length, mkNewDS cid p.1 p.2, ?_, ?_, ?_, ?_⟩
    · rw [buildIndex_append, keyDS_mkNewDS]
      simp [alookup]
    · exact List.get?_concat_length _ _
    · intro hx
      simpa [mkNewDS, Option.isSome_map] using hx
    · intro hx
      simpa [mkNewDS, Option.isSome_map] using hx

theorem processLabel_eq_self {cid : String} {st : MergeState}
    (hinv : st.idx = buildIndex st.states) (p : String × SpecificDefaultEntry)
    (h : LD cid p.1 p.2 st.states) : processLabel cid st p = st := by
  by_cases hd : (p.2.eec.isSome || p.2.pps.isSome) = true
  · obtain ⟨i, e, hlk, hget, he, hp⟩ := h hd
    have hl : alookup st.idx (keyOf cid p.1) = some i := by rw [hinv]; exact hlk
    simp only [processLabel, hl]
    rw [modifyAt_eq_self_of_get? hget (fillDS_eq_self he hp)]
  · have hde : p.2.eec.isSome = false := by
      cases hx : p.2.eec.isSome <;> simp_all
    have hdp : p.2.pps.isSome = false := by
      cases hx : p.2.pps.isSome <;> simp_all
    cases hl : alookup st.idx (keyOf cid p.1) with
    | some i =>
      simp only [processLabel, hl]
      rw [modifyAt_eq_self_of_id
        (fun a => fillDS_eq_self (by simp [hde]) (by simp [hdp])) i st.states]
    | none =>
      have hn : ((mkNewDS cid p.1 p.2).eec.isSome || (mkNewDS cid p.1 p.2).pps.isSome) = false := by
        simp [mkNewDS, Option.isSome_map, hde, hdp]
      simp [processLabel, hl, hn]

theorem foldl_processLabel_spec (cid : String)
    (defaults : List (String × SpecificDefaultEntry)) (st : MergeState)
    (hinv : st.idx = buildIndex st.states) :
    (defaults.foldl (processLabel cid) st).idx =
        buildIndex (defaults.foldl (processLabel cid) st).states ∧
    (∀ p ∈ defaults, LD cid p.1 p.2 (defaults.foldl (processLabel cid) st).states) ∧
    (∀ cid0 label0 d0, LD cid0 label0 d0 st.states →
        LD cid0 label0 d0 (defaults.foldl (processLabel cid) st).states) := by
  induction defaults generalizing st with
  | nil => exact ⟨hinv, by simp, fun _ _ _ h => h⟩
  | cons p rest ih =>
    have hinv1 := processLabel_idx cid hinv p
    obtain ⟨h1, h2, h3⟩ := ih (processLabel cid st p) hinv1
    refine ⟨h1, ?_, ?_⟩
    · intro q hq
      rcases List.mem_cons.mp hq with rfl | hq'
      · exact h3 _ _ _ (LD_processLabel_self hinv q)
      · exact h2 q hq'
    · intro cid0 label0 d0 h0
      exact h3 _ _ _ (LD_processLabel hinv h0 cid p)

theorem processSubsystem_spec (pm : Registry) (sub : Subsystem) (st : MergeState)
    (hinv : st.idx = buildIndex st.states) :
    (processSubsystem pm st sub).idx = buildIndex (processSubsystem pm st sub).states ∧
    (sub.hardwarePlugin ≠ "" → ∀ p, alookup pm sub.hardwarePlugin = some p →
        ∀ q ∈ p.specificDefaults, LD sub.dpll.clockID q.1 q.2 (processSubsystem pm st sub).states) ∧
    (∀ cid0 label0 d0, LD cid0 label0 d0 st.states →
        LD cid0 label0 d0 (processSubsystem pm st sub).states) := by
  by_cases hhp : sub.hardwarePlugin = ""
  · refine ⟨?_, ?_, ?_⟩ <;> simp only [processSubsystem, hhp, if_pos rfl]
    · exact hinv
    · intro h
      exact absurd rfl h
    · exact fun _ _ _ h => h
  · cases hl : alookup pm sub.hardwarePlugin with
    | none =>
      refine ⟨?_, ?_, ?_⟩ <;> simp only [processSubsystem, hhp, if_neg, hl, not_false_iff]
      · exact hinv
      · intro _ p hp
        exact Option.noConfusion hp
      · exact fun _ _ _ h => h
    | some plugin =>
      obtain ⟨h1, h2, h3⟩ := foldl_processLabel_spec sub.dpll.clockID
        plugin.specificDefaults st hinv
      refine ⟨?_, ?_, ?_⟩ <;> simp only [processSubsystem, hhp, if_neg, hl, not_false_iff]
      · exact h1
      · intro _ p hp
        injection hp with hp
        subst hp
        exact h2
      · exact h3

theorem foldl_processSubsystem_spec (pm : Registry) (structs : List Subsystem)
    (st : MergeState) (hinv : st.idx = buildIndex st.states) :
    (structs.foldl (processSubsystem pm) st).idx =
        buildIndex (structs.foldl (processSubsystem pm) st).states ∧
    AllLD pm structs (structs.foldl (processSubsystem pm) st).states ∧
    (∀ cid0 label0 d0, LD cid0 label0 d0 st.states →
        LD cid0 label0 d0 (structs.foldl (processSubsystem pm) st).states) := by
  induction structs generalizing st with
  | nil => exact ⟨hinv, by intro sub h; simp at h, fun _ _ _ h => h⟩
  | cons sub rest ih =>
    obtain ⟨g1, g2, g3⟩ := processSubsystem_spec pm sub st hinv
    obtain ⟨h1, h2, h3⟩ := ih (processSubsystem pm st sub) g1
    refine ⟨h1, ?_, ?_⟩
    · intro s hs hh p hp q hq
      rcases List.mem_cons.mp hs with rfl | hs'
      · exact h3 _ _ _ (g2 hh p hp q hq)
      · exact h2 s hs' hh p hp q hq
    · intro cid0 label0 d0 h0
      exact h3 _ _ _ (g3 _ _ _ h0)

theorem foldl_processLabel_id (cid : String)
    (defaults : List (String × SpecificDefaultEntry)) (st : MergeState)
    (hinv : st.idx = buildIndex st.states)
    (h : ∀ p ∈ defaults, LD cid p.1 p.2 st.states) :
    defaults.foldl (processLabel cid) st = st := by
  induction defaults with
  | nil => rfl
  | cons p rest ih =>
    rw [List.foldl_cons, processLabel_eq_self hinv p (h p (List.mem_cons_self p rest))]
    exact ih fun q hq => h q (List.mem_cons_of_mem p hq)

theorem processSubsystem_eq_self (pm : Registry) (sub : Subsystem) (st : MergeState)
    (hinv : st.idx = buildIndex st.states)
    (h : sub.hardwarePlugin ≠ "" → ∀ p, alookup pm sub.hardwarePlugin = some p →
        ∀ q ∈ p.specificDefaults, LD sub.dpll.clockID q.1 q.2 st.states) :
    processSubsystem pm st sub = st := by
  by_cases hhp : sub.hardwarePlugin = ""
  · simp [processSubsystem, hhp]
  · cases hl : alookup pm sub.hardwarePlugin with
    | none => simp [processSubsystem, hhp, hl]
    | some plugin =>
      simp only [processSubsystem, hhp, if_neg, hl, not_false_iff]
      exact foldl_processLabel_id _ _ _ hinv (h hhp plugin hl)

theorem foldl_processSubsystem_id (pm : Registry) (structs : List Subsystem)
    (st : MergeState) (hinv : st.idx = buildIndex st.states)
    (h : AllLD pm structs st.states) :
    structs.foldl (processSubsystem pm) st = st := by
  induction structs with
  | nil => rfl
  | cons sub rest ih =>
    rw [List.foldl_cons,
      processSubsystem_eq_self pm sub st hinv (h sub (List.mem_cons_self sub rest))]
    exact ih fun s hs => h s (List.mem_cons_of_mem sub hs)

theorem applyCondP_stable (pm : Registry) (structs : List Subsystem) (c : Condition)
    (hdc : isDefaultCond c = true) (h : AllLD pm structs c.desiredStates) :
    applyCondP pm structs c = c := by
  have hid := foldl_processSubsystem_id pm structs
    { states := c.desiredStates, idx := buildIndex c.desiredStates } rfl h
  cases c with
  | mk nm srcs ds => simp_all [applyCondP]

theorem applyCondP_idem (pm : Registry) (structs : List Subsystem) (c : Condition) :
    applyCondP pm structs (applyCondP pm structs c) = applyCondP pm structs c := by
  cases hdc : isDefaultCond c with
  | false => rw [applyCondP_of_not_default hdc, applyCondP_of_not_default hdc]
  | true =>
    obtain ⟨h1, h2, _⟩ := foldl_processSubsystem_spec pm structs
      { states := c.desiredStates, idx := buildIndex c.desiredStates } rfl
    apply applyCondP_stable
    · rw [isDefaultCond_applyCondP, hdc]
    · rw [applyCondP_desiredStates_of_default hdc]
      exact h2

theorem isDefaultCond_defaultCondition : isDefaultCond defaultCondition = true := rfl

theorem mergeP_idem (pm : Registry) (cc : ClockChain) :
    mergeP pm (mergeP pm cc) = mergeP pm cc := by
  cases hb : cc.behavior with
  | none =>
    have h : mergeP pm cc = cc := by simp [mergeP, hb]
    rw [h, h]
  | some b =>
    have hstep : mergeP pm cc =
        { cc with behavior := some { b with conditions :=
            (if hasDefaultCondition b.conditions then b.conditions
             else defaultCondition :: b.conditions).map (applyCondP pm cc.chainStructure) } } := by
      simp [mergeP, hb]
    have hhas : hasDefaultCondition
        ((if hasDefaultCondition b.conditions then b.conditions
          else defaultCondition :: b.conditions).map (applyCondP pm cc.chainStructure)) = true := by
      by_cases hd : hasDefaultCondition b.conditions
      · rw [if_pos hd, hasDefaultCondition_map_applyCondP]
        exact hd
      · rw [if_neg hd, List.map_cons]
        simp only [hasDefaultCondition, List.any_cons, Bool.or_eq_true]
        exact Or.inl (by rw [isDefaultCond_applyCondP, isDefaultCond_defaultCondition])
    rw [hstep]
    simp only [mergeP, hhas, if_pos]
    rw [List.map_map]
    have hmm : ((if hasDefaultCondition b.conditions then b.conditions
        else defaultCondition :: b.conditions).map
          (applyCondP pm cc.chainStructure ∘ applyCondP pm cc.chainStructure)) =
        ((if hasDefaultCondition b.conditions then b.conditions
          else defaultCondition :: b.conditions).map (applyCondP pm cc.chainStructure)) :=
      List.map_congr_left fun c _ => applyCondP_idem pm cc.chainStructure c
    rw [hmm]

/-- C2: the default-merge engine is idempotent: merging an already
merged document with the same plugin registry returns the document
unchanged (and without error), so desired-state lists are identical
entry for entry and in order. -/
theorem c2_merge_idempotent (pm : Registry) (cc : ClockChain) :
    mergeUserConfigWithDefaults pm (mergeUserConfigWithDefaults pm cc).1 =
      mergeUserConfigWithDefaults pm cc := by
  rw [mergeUserConfigWithDefaults_eq pm cc]
  show mergeUserConfigWithDefaults pm (mergeP pm cc) = (mergeP pm cc, none)
  rw [mergeUserConfigWithDefaults_eq pm (mergeP pm cc), mergeP_idem]

/-! ## C10: merge with no behavior section -/

/-- C10: if the document has no behavior section, the merge stage
succeeds and returns the document entirely unchanged, regardless of the
registry contents. -/
theorem c10_merge_no_behavior (pm : Registry) (cc : ClockChain)
    (h : cc.behavior = none) : mergeUserConfigWithDefaults pm cc = (cc, none) := by
  simp [mergeUserConfigWithDefaults, h]

/-- A plugin with one EEC default on board label `GNSS_1PPS`. -/
def samplePlugin : HardwarePluginConfig :=
  { pluginInfo := { name := "e810", description := "", version := "", vendor := "" },
    specificDefaults :=
      [("GNSS_1PPS", { eec := some { priority := some 0, state := "" },
                       pps := some { priority := some 0, state := "" } })],
    behaviorNotes := "" }

/-- A subsystem referencing `samplePlugin`, with `GNSS_1PPS` among its
phase inputs. -/
def sampleSub : Subsystem :=
  { name := "S", hardwarePlugin := "e810",
    dpll :=
      { clockID := "0x112233",
        phaseInputs :=
          [("GNSS_1PPS",
            { connector := "", phaseAdjustment := none, frequency := some 1,
              syncTechnologyConfigName := "", description := "", referenceSync := "" })],
        phaseOutputs := [], frequencyInputs := [], frequencyOutputs := [] },
    ethernet := [{ ports := ["ens4f0"] }] }

/-- A document with a plugin-backed subsystem but no behavior section. -/
def c10Doc : ClockChain :=
  { commonDefinitions := none, chainStructure := [sampleSub], behavior := none }

theorem c10_merge_no_behavior_witness :
    c10Doc.behavior = none ∧
      mergeUserConfigWithDefaults [("e810", samplePlugin)] c10Doc = (c10Doc, none) :=
  ⟨rfl, c10_merge_no_behavior [("e810", samplePlugin)] c10Doc rfl⟩

/-! ## C4: default-condition synthesis -/

/-- C4: with a behavior section present, a document with no condition
whose first source state has type `"default"` gains exactly one
synthesized condition, prepended, named
"Default Configuration (Auto-generated)" with the single sentinel
source state; a document that already has one gains no condition. -/
theorem c4_default_condition_synthesis (pm : Registry) (cc : ClockChain) (b : Behavior)
    (hb : cc.behavior = some b) :
    (hasDefaultCondition b.conditions = false →
      (mergeUserConfigWithDefaults pm cc).1.behavior =
        some { b with conditions :=
            applyCondP pm cc.chainStructure defaultCondition ::
              b.conditions.map (applyCondP pm cc.chainStructure) } ∧
      (applyCondP pm cc.chainStructure defaultCondition).name =
        "Default Configuration (Auto-generated)" ∧
      (applyCondP pm cc.chainStructure defaultCondition).sources =
        [{ sourceName := "Default on profile (re)load", conditionType := "default" }]) ∧
    (hasDefaultCondition b.conditions = true →
      (mergeUserConfigWithDefaults pm cc).1.behavior =
        some { b with conditions := b.conditions.map (applyCondP pm cc.chainStructure) }) := by
  rw [mergeUserConfigWithDefaults_eq]
  constructor
  · intro h
    refine ⟨?_, ?_, ?_⟩
    · simp [mergeP, hb, h]
    · rw [applyCondP_name]
      rfl
    · rw [applyCondP_sources]
      rfl
  · intro h
    simp [mergeP, hb, h]

/-- A document with a behavior section but no default-type condition. -/
def c4Doc : ClockChain :=
  { commonDefinitions := none, chainStructure := [sampleSub],
    behavior := some { sources := [], conditions := [] } }

theorem c4_default_condition_synthesis_witness :
    c4Doc.behavior = some { sources := [], conditions := [] } ∧
    hasDefaultCondition ([] : List Condition) = false ∧
    ((mergeUserConfigWithDefaults [("e810", samplePlugin)] c4Doc).1.behavior =
      some { sources := [],
             conditions :=
               [applyCondP [("e810", samplePlugin)] c4Doc.chainStructure defaultCondition] } ∧
     (applyCondP [("e810", samplePlugin)] c4Doc.chainStructure defaultCondition).name =
       "Default Configuration (Auto-generated)" ∧
     (applyCondP [("e810", samplePlugin)] c4Doc.chainStructure defaultCondition).sources =
       [{ sourceName := "Default on profile (re)load", conditionType := "default" }]) := by
  refine ⟨rfl, rfl, ?_⟩
  have h := (c4_default_condition_synthesis [("e810", samplePlugin)] c4Doc
    { sources := [], conditions := [] } rfl).1 rfl
  simpa using h

/-! ## C5: observability of partial mutation on stage failure -/

/-- A subsystem whose DPLL clock ID is the alias `GM`. -/
def c5SubA : Subsystem :=
  { name := "A", hardwarePlugin := "",
    dpll := { clockID := "GM", phaseInputs := [], phaseOutputs := [],
              frequencyInputs := [], frequencyOutputs := [] },
    ethernet := [] }

/-- A subsystem whose DPLL clock ID is neither a valid ID nor an alias. -/
def c5SubB : Subsystem :=
  { name := "B", hardwarePlugin := "",
    dpll := { clockID := "zz!", phaseInputs := [], phaseOutputs := [],
              frequencyInputs := [], frequencyOutputs := [] },
    ethernet := [] }

/-- A document where alias resolution rewrites the first subsystem and
then fails on the second. -/
def c5Doc : ClockChain :=
  { commonDefinitions := some
      { eSyncDefinitions := [], refSyncDefinitions := [],
        clockIdentifiers := [{ aliasName := "GM", clockID := "123", description := "" }] },
    chainStructure := [c5SubA, c5SubB], behavior := none }

/-- C5 counterexample: alias resolution fails on `c5Doc` yet the
document visible after the call differs from the input (the first
subsystem's clock ID was already rewritten to "123"), so a failing
stage can leave a partially-mutated document. -/
theorem c5_error_mutation_counterexample :
    (resolveClockAliases c5Doc).2.isSome = true ∧
    (resolveClockAliases c5Doc).1 ≠ c5Doc ∧
    ((resolveClockAliases c5Doc).1.chainStructure.map (fun s => s.dpll.clockID)) =
      ["123", "zz!"] := by
  refine ⟨by decide, by decide, by decide⟩

/-- C5 amended: the merge stage never returns an error at all, and a
failure while building the alias map (before any field is rewritten)
leaves the document unchanged; a failure later, while resolving a
field, may leave earlier fields rewritten (see the counterexample). -/
theorem c5_amended_error_behavior (pm : Registry) (cc : ClockChain) :
    (mergeUserConfigWithDefaults pm cc).2 = none ∧
    (∀ e, buildClockAliasMap cc = .error e → resolveClockAliases cc = (cc, some e)) := by
  refine ⟨?_, ?_⟩
  · rw [mergeUserConfigWithDefaults_eq]
  · intro e he
    simp [resolveClockAliases, he]

/-- A document whose alias table has a duplicate alias. -/
def c5DupDoc : ClockChain :=
  { commonDefinitions := some
      { eSyncDefinitions := [], refSyncDefinitions := [],
        clockIdentifiers :=
          [{ aliasName := "GM", clockID := "123", description := "" },
           { aliasName := "GM", clockID := "456", description := "" }] },
    chainStructure := [c5SubA], behavior := none }

theorem c5_amended_error_behavior_witness :
    (mergeUserConfigWithDefaults [] c5DupDoc).2 = none ∧
    buildClockAliasMap c5DupDoc = .error "clockIdentifiers: duplicate alias GM" ∧
    resolveClockAliases c5DupDoc = (c5DupDoc, some "clockIdentifiers: duplicate alias GM") := by
  refine ⟨(c5_amended_error_behavior [] c5DupDoc).1, by rfl, ?_⟩
  exact (c5_amended_error_behavior [] c5DupDoc).2 _ (by rfl)

/-! ## C1: which board labels produce desired-state entries -/

/-- Provenance of a desired-state entry after merging: it either shares
its merge key with an entry of the original list, or it was synthesized
from the specific defaults of some subsystem's registered plugin. -/
def entryOrigin (pm : Registry) (structs : List Subsystem) (S0 : List DesiredState)
    (e : DesiredState) : Prop :=
  (∃ e0 ∈ S0, keyDS e0 = keyDS e) ∨
  (∃ sub ∈ structs, sub.hardwarePlugin ≠ "" ∧
    ∃ p, alookup pm sub.hardwarePlugin = some p ∧
      ∃ d, (e.boardLabel, d) ∈ p.specificDefaults ∧ e.clockID = sub.dpll.clockID)

theorem entryOrigin_fillDS {pm : Registry} {structs : List Subsystem}
    {S0 : List DesiredState} {e : DesiredState} (d : SpecificDefaultEntry)
    (h : entryOrigin pm structs S0 e) : entryOrigin pm structs S0 (fillDS d e) := by
  rcases h with ⟨e0, he0, hk⟩ | ⟨sub, hs, hne, p, hp, d0, hd0, hcid⟩
  · exact Or.inl ⟨e0, he0, by rw [hk, keyDS_fillDS]⟩
  · exact Or.inr ⟨sub, hs, hne, p, hp, d0, by rwa [fillDS_boardLabel],
      by rwa [fillDS_clockID]⟩

theorem entryOrigin_fold_labels (pm : Registry) (structs : List Subsystem)
    (S0 : List DesiredState) (sub : Subsystem) (hsub : sub ∈ structs)
    (hne : sub.hardwarePlugin ≠ "") (p : HardwarePluginConfig)
    (hp : alookup pm sub.hardwarePlugin = some p)
    (defaults : List (String × SpecificDefaultEntry))
    (hdef : ∀ q ∈ defaults, q ∈ p.specificDefaults) (st : MergeState)
    (h : ∀ e ∈ st.states, entryOrigin pm structs S0 e) :
    ∀ e ∈ (defaults.foldl (processLabel sub.dpll.clockID) st).states,
      entryOrigin pm structs S0 e := by
  induction defaults generalizing st with
  | nil => exact h
  | cons q rest ih =>
    rw [List.foldl_cons]
    refine ih (fun q' hq' => hdef q' (List.mem_cons_of_mem q hq')) _ ?_
    intro e he
    cases hl : alookup st.idx (keyOf sub.dpll.clockID q.1) with
    | some j =>
      simp only [processLabel, hl] at he
      rcases mem_modifyAt he with hmem | ⟨e', he', rfl⟩
      · exact h e hmem
      · exact entryOrigin_fillDS q.2 (h e' he')
    | none =>
      by_cases hn : ((mkNewDS sub.dpll.clockID q.1 q.2).eec.isSome
          || (mkNewDS sub.dpll.clockID q.1 q.2).pps.isSome) = true
      · simp only [processLabel, hl, hn, if_pos] at he
        rcases List.mem_append.mp he with hmem | hnew
        · exact h e hmem
        · have : e = mkNewDS sub.dpll.clockID q.1 q.2 := by simpa using hnew
          subst this
          exact Or.inr ⟨sub, hsub, hne, p, hp, q.2,
            hdef q (List.mem_cons_self q rest), rfl⟩
      · simp only [processLabel, hl, if_neg hn] at he
        exact h e he

theorem entryOrigin_fold_subs (pm : Registry) (structs : List Subsystem)
    (S0 : List DesiredState) (l : List Subsystem) (hl : ∀ s ∈ l, s ∈ structs)
    (st : MergeState) (h : ∀ e ∈ st.states, entryOrigin pm structs S0 e) :
    ∀ e ∈ (l.foldl (processSubsystem pm) st).states, entryOrigin pm structs S0 e := by
  induction l generalizing st with
  | nil => exact h
  | cons sub rest ih =>
    rw [List.foldl_cons]
    refine ih (fun s hs => hl s (List.mem_cons_of_mem sub hs)) _ ?_
    by_cases hne : sub.hardwarePlugin = ""
    · simpa [processSubsystem, hne] using h
    · cases hpl : alookup pm sub.hardwarePlugin with
      | none => simpa [processSubsystem, hne, hpl] using h
      | some p =>
        simp only [processSubsystem, hne, if_neg, hpl, not_false_iff]
        exact entryOrigin_fold_labels pm structs S0 sub
          (hl sub (List.mem_cons_self sub rest)) hne p hpl p.specificDefaults
          (fun q hq => hq) st h

/-- C1 amended: for a default-type condition, an entry is synthesized
or overlaid for exactly the board labels declared in the subsystem's
plugin `SpecificDefaults` — presence in the subsystem's four DPLL pin
mappings is neither required nor consulted.  Completeness: every
plugin-declared label carrying at least one default ends up with an
entry at its merge key.  Soundness: every merged entry either shares
its key with a user-authored entry or stems from some registered
plugin's declared labels. -/
theorem c1_amended_plugin_labels (pm : Registry) (structs : List Subsystem) (c : Condition)
    (hdc : isDefaultCond c = true) :
    (∀ sub ∈ structs, sub.hardwarePlugin ≠ "" →
      ∀ p, alookup pm sub.hardwarePlugin = some p →
      ∀ label d, (label, d) ∈ p.specificDefaults → (d.eec.isSome || d.pps.isSome) = true →
      ∃ e ∈ (applyCondP pm structs c).desiredStates,
        keyDS e = keyOf sub.dpll.clockID label) ∧
    (∀ e ∈ (applyCondP pm structs c).desiredStates,
      entryOrigin pm structs c.desiredStates e) := by
  rw [applyCondP_desiredStates_of_default hdc]
  constructor
  · intro sub hsub hne p hp label d hmem hd
    obtain ⟨_, h2, _⟩ := foldl_processSubsystem_spec pm structs
      { states := c.desiredStates, idx := buildIndex c.desiredStates } rfl
    obtain ⟨i, e, hlk, hget, _, _⟩ := h2 sub hsub hne p hp (label, d) hmem hd
    obtain ⟨e', hget', hkey'⟩ := lookup_buildIndex_some hlk
    rw [hget] at hget'
    injection hget' with hget'
    exact ⟨e, List.get?_mem hget, by rw [hget']; exact hkey'⟩
  · exact entryOrigin_fold_subs pm structs c.desiredStates structs (fun s hs => hs) _
      (fun e he => Or.inl ⟨e, he, rfl⟩)

/-- A subsystem with completely empty pin mappings referencing plugin
`p`. -/
def c1Sub : Subsystem :=
  { name := "S", hardwarePlugin := "p",
    dpll := { clockID := "1", phaseInputs := [], phaseOutputs := [],
              frequencyInputs := [], frequencyOutputs := [] },
    ethernet := [] }

/-- A plugin declaring an EEC default for board label `X`. -/
def c1Plugin : HardwarePluginConfig :=
  { pluginInfo := { name := "p", description := "", version := "", vendor := "" },
    specificDefaults := [("X", { eec := some { priority := some 0, state := "" }, pps := none })],
    behaviorNotes := "" }

/-- The default-type condition used by the C1 documents. -/
def c1Cond : Condition :=
  { name := "D",
    sources := [{ sourceName := "Default on profile (re)load", conditionType := "default" }],
    desiredStates := [] }

/-- A document whose subsystem has no pins at all. -/
def c1Doc : ClockChain :=
  { commonDefinitions := none, chainStructure := [c1Sub],
    behavior := some { sources := [], conditions := [c1Cond] } }

/-- C1 counterexample: board label `X` appears only in the plugin's
`SpecificDefaults` — all four pin mappings of the subsystem are empty —
yet the merge synthesizes a desired-state entry for it, refuting the
requirement that the label appear in the subsystem's pin mappings. -/
theorem c1_plugin_only_label_counterexample :
    c1Sub.dpll.phaseInputs = [] ∧ c1Sub.dpll.phaseOutputs = [] ∧
    c1Sub.dpll.frequencyInputs = [] ∧ c1Sub.dpll.frequencyOutputs = [] ∧
    ((mergeUserConfigWithDefaults [("p", c1Plugin)] c1Doc).1.behavior.map
      (fun b => b.conditions.map (fun c => c.desiredStates))) =
      some [[{ clockID := "1", boardLabel := "X",
               eec := some { priority := some 0, state := "" }, pps := none }]] :=
  ⟨rfl, rfl, rfl, rfl, by decide⟩

theorem c1_amended_plugin_labels_witness :
    isDefaultCond c1Cond = true ∧
    ((∀ sub ∈ [c1Sub], sub.hardwarePlugin ≠ "" →
      ∀ p, alookup [("p", c1Plugin)] sub.hardwarePlugin = some p →
      ∀ label d, (label, d) ∈ p.specificDefaults → (d.eec.isSome || d.pps.isSome) = true →
      ∃ e ∈ (applyCondP [("p", c1Plugin)] [c1Sub] c1Cond).desiredStates,
        keyDS e = keyOf sub.dpll.clockID label) ∧
     (∀ e ∈ (applyCondP [("p", c1Plugin)] [c1Sub] c1Cond).desiredStates,
       entryOrigin [("p", c1Plugin)] [c1Sub] c1Cond.desiredStates e)) :=
  ⟨rfl, c1_amended_plugin_labels [("p", c1Plugin)] [c1Sub] c1Cond rfl⟩

/-! ## C3: overlay precedence for user-authored entries -/

/-- The plugin defaults of one subsystem covering merge key `K`, in
processing order. -/
def coveringOfSub (pm : Registry) (K : String) (sub : Subsystem) :
    List SpecificDefaultEntry :=
  if sub.hardwarePlugin = "" then []
  else
    match alookup pm sub.hardwarePlugin with
    | none => []
    | some p =>
      (p.specificDefaults.filter (fun q => keyOf sub.dpll.clockID q.1 = K)).map Prod.snd

/-- All plugin defaults covering merge key `K` over the whole structure,
in processing order. -/
def coveringDefaults (pm : Registry) (structs : List Subsystem) (K : String) :
    List SpecificDefaultEntry :=
  (structs.map (coveringOfSub pm K)).join

/-- Tracking one entry through the merge: its index, merge key, and
current value (the entry is the most recent one for its key). -/
def Tracked (st : MergeState) (i : Nat) (K : String) (v : DesiredState) : Prop :=
  st.idx = buildIndex st.states ∧ st.states.get? i = some v ∧ keyDS v = K ∧
    alookup (buildIndex st.states) K = some i

theorem Tracked_processLabel {st : MergeState} {i : Nat} {K : String} {v : DesiredState}
    (h : Tracked st i K v) (cid : String) (q : String × SpecificDefaultEntry) :
    Tracked (processLabel cid st q) i K
      (if keyOf cid q.1 = K then fillDS q.2 v else v) := by
  obtain ⟨hinv, hget, hkey, hlk⟩ := h
  by_cases hKq : keyOf cid q.1 = K
  · have hl : alookup st.idx (keyOf cid q.1) = some i := by rw [hinv, hKq]; exact hlk
    rw [if_pos hKq]
    refine ⟨processLabel_idx cid hinv q, ?_, ?_, ?_⟩
    · simp only [processLabel, hl]
      rw [get?_modifyAt_self, hget]
      rfl
    · rw [keyDS_fillDS, hkey]
    · simp only [processLabel, hl]
      rw [buildIndex_modifyAt (keyDS_fillDS q.2)]
      exact hlk
  · rw [if_neg hKq]
    cases hl : alookup st.idx (keyOf cid q.1) with
    | some j =>
      have hij : i ≠ j := by
        intro hij
        subst hij
        obtain ⟨e1, hget1, hkey1⟩ := lookup_buildIndex_some (hinv ▸ hl)
        rw [hget] at hget1
        injection hget1 with hget1
        exact hKq (by rw [← hget1] at hkey1; rw [← hkey1, hkey])
      refine ⟨processLabel_idx cid hinv q, ?_, hkey, ?_⟩
      · simp only [processLabel, hl]
        rw [get?_modifyAt_ne _ _ _ _ hij]
        exact hget
      · simp only [processLabel, hl]
        rw [buildIndex_modifyAt (keyDS_fillDS q.2)]
        exact hlk
    | none =>
      by_cases hn : ((mkNewDS cid q.1 q.2).eec.isSome
          || (mkNewDS cid q.1 q.2).pps.isSome) = true
      · have hlt : i < st.states.length := (List.get?_eq_some.mp hget).1
        refine ⟨processLabel_idx cid hinv q, ?_, hkey, ?_⟩
        · simp only [processLabel, hl, hn, if_pos]
          rw [List.get?_append hlt]
          exact hget
        · simp only [processLabel, hl, hn, if_pos]
          rw [buildIndex_append, keyDS_mkNewDS]
          simpa [alookup, hKq] using hlk
      · simp only [processLabel, hl, if_neg hn]
        exact ⟨hinv, hget, hkey, hlk⟩

theorem Tracked_fold_labels (cid : String) (defaults : List (String × SpecificDefaultEntry))
    {st : MergeState} {i : Nat} {K : String} {v : DesiredState} (h : Tracked st i K v) :
    Tracked (defaults.foldl (processLabel cid) st) i K
      (((defaults.filter (fun q => keyOf cid q.1 = K)).map Prod.snd).foldl
        (fun w d => fillDS d w) v) := by
  induction defaults generalizing st v with
  | nil => exact h
  | cons q rest ih =>
    rw [List.foldl_cons]
    by_cases hKq : keyOf cid q.1 = K
    · have hstep := Tracked_processLabel h cid q
      rw [if_pos hKq] at hstep
      have := ih hstep
      rw [List.filter_cons_of_pos (by simpa using hKq)] at *
      simpa using this
    · have hstep := Tracked_processLabel h cid q
      rw [if_neg hKq] at hstep
      have := ih hstep
      rw [List.filter_cons_of_neg (by simpa using hKq)]
      exact this

theorem Tracked_processSubsystem (pm : Registry) (sub : Subsystem)
    {st : MergeState} {i : Nat} {K : String} {v : DesiredState} (h : Tracked st i K v) :
    Tracked (processSubsystem pm st sub) i K
      ((coveringOfSub pm K sub).foldl (fun w d => fillDS d w) v) := by
  by_cases hne : sub.hardwarePlugin = ""
  · simpa [processSubsystem, coveringOfSub, hne] using h
  · cases hpl : alookup pm sub.hardwarePlugin with
    | none => simpa [processSubsystem, coveringOfSub, hne, hpl] using h
    | some p =>
      simp only [processSubsystem, coveringOfSub, hne, if_neg, hpl, not_false_iff]
      exact Tracked_fold_labels sub.dpll.clockID p.specificDefaults h

theorem Tracked_fold_subs (pm : Registry) (structs : List Subsystem)
    {st : MergeState} {i : Nat} {K : String} {v : DesiredState} (h : Tracked st i K v) :
    Tracked (structs.foldl (processSubsystem pm) st) i K
      ((coveringDefaults pm structs K).foldl (fun w d => fillDS d w) v) := by
  induction structs generalizing st v with
  | nil => exact h
  | cons sub rest ih =>
    rw [List.foldl_cons]
    have hstep := Tracked_processSubsystem pm sub h
    have := ih hstep
    rw [coveringDefaults, List.map_cons]
    have hjoin : (coveringOfSub pm K sub :: List.map (coveringOfSub pm K) rest).join
        = coveringOfSub pm K sub ++ coveringDefaults pm rest K := rfl
    rw [hjoin, List.foldl_append]
    exact this

/-- C3: if a user-authored desired state (the most recent entry for its
merge key in a default-type condition) sets EEC but omits PPS, and the
covering set of plugin defaults for its merge key is exactly one
default declaring PPS, then after the merge the corresponding condition
in the returned document holds that entry with the user's EEC value
unchanged and PPS equal to the plugin's declared PPS default. -/
theorem c3_overlay_precedence (pm : Registry) (cc : ClockChain) (b : Behavior)
    (c : Condition) (i : Nat) (ds : DesiredState) (e : PinState)
    (d : SpecificDefaultEntry) (pd : PluginPinDefaults)
    (hb : cc.behavior = some b) (hc : c ∈ b.conditions) (hdc : isDefaultCond c = true)
    (hget : c.desiredStates.get? i = some ds)
    (hlast : alookup (buildIndex c.desiredStates) (keyDS ds) = some i)
    (heec : ds.eec = some e) (hpps : ds.pps = none)
    (hcov : coveringDefaults pm cc.chainStructure (keyDS ds) = [d])
    (hpd : d.pps = some pd) :
    ∃ b', (mergeUserConfigWithDefaults pm cc).1.behavior = some b' ∧
      applyCondP pm cc.chainStructure c ∈ b'.conditions ∧
      (applyCondP pm cc.chainStructure c).desiredStates.get? i =
        some { clockID := ds.clockID, boardLabel := ds.boardLabel,
               eec := some e, pps := some (mkPinState pd) } := by
  have htr : Tracked { states := c.desiredStates, idx := buildIndex c.desiredStates }
      i (keyDS ds) ds := ⟨rfl, hget, rfl, hlast⟩
  have h2 := Tracked_fold_subs pm cc.chainStructure htr
  rw [hcov] at h2
  have hval : fillDS d ds =
      { clockID := ds.clockID, boardLabel := ds.boardLabel,
        eec := some e, pps := some (mkPinState pd) } := by
    cases ds with
    | mk cid bl deec dpps =>
      simp only at heec hpps
      subst heec
      subst hpps
      simp [fillDS, hpd]
  refine ⟨{ b with conditions :=
      (if hasDefaultCondition b.conditions then b.conditions
       else defaultCondition :: b.conditions).map (applyCondP pm cc.chainStructure) },
    ?_, ?_, ?_⟩
  · rw [mergeUserConfigWithDefaults_eq]
    simp [mergeP, hb]
  · apply List.mem_map_of_mem
    by_cases hd : hasDefaultCondition b.conditions
    · rw [if_pos hd]
      exact hc
    · rw [if_neg hd]
      exact List.mem_cons_of_mem _ hc
  · rw [applyCondP_desiredStates_of_default hdc]
    have := h2.2.1
    rw [List.foldl_cons, List.foldl_nil, hval] at this
    exact this

/-! ## C6: merge output order -/

theorem string_append_cancel_left {s a b : String} (h : s ++ a = s ++ b) : a = b := by
  have hd := congrArg String.data h
  simp only [String.data_append] at hd
  have h2 := List.append_cancel_left hd
  cases a
  cases b
  exact congrArg String.mk h2

theorem keyOf_label_inj {cid a b : String} (h : keyOf cid a = keyOf cid b) : a = b :=
  string_append_cancel_left h

theorem mkNewDS_hasDefault (cid label : String) (d : SpecificDefaultEntry) :
    ((mkNewDS cid label d).eec.isSome || (mkNewDS cid label d).pps.isSome) =
      (d.eec.isSome || d.pps.isSome) := by
  simp [mkNewDS, Option.isSome_map]

theorem foldl_processLabel_fresh (cid : String) :
    ∀ (defaults : List (String × SpecificDefaultEntry)) (st : MergeState),
    st.idx = buildIndex st.states →
    (∀ q ∈ defaults, alookup (buildIndex st.states) (keyOf cid q.1) = none) →
    (defaults.map Prod.fst).Nodup →
    (defaults.foldl (processLabel cid) st).states =
      st.states ++ (defaults.filter (fun q => q.2.eec.isSome || q.2.pps.isSome)).map
        (fun q => mkNewDS cid q.1 q.2)
  | [], st, hinv, hfresh, hnd => by simp
  | q :: rest, st, hinv, hfresh, hnd => by
    have hl : alookup st.idx (keyOf cid q.1) = none := by
      rw [hinv]
      exact hfresh q (List.mem_cons_self q rest)
    have hndq : q.1 ∉ rest.map Prod.fst := by
      rw [List.map_cons] at hnd
      exact (List.nodup_cons.mp hnd).1
    have hndrest : (rest.map Prod.fst).Nodup := by
      rw [List.map_cons] at hnd
      exact (List.nodup_cons.mp hnd).2
    by_cases hn : (q.2.eec.isSome || q.2.pps.isSome) = true
    · have hn' : ((mkNewDS cid q.1 q.2).eec.isSome || (mkNewDS cid q.1 q.2).pps.isSome)
          = true := by rw [mkNewDS_hasDefault]; exact hn
      have hstep : processLabel cid st q =
          { states := st.states ++ [mkNewDS cid q.1 q.2],
            idx := (keyOf cid q.1, st.states.length) :: st.idx } := by
        simp [processLabel, hl, hn']
      have hinv' : (processLabel cid st q).idx = buildIndex (processLabel cid st q).states :=
        processLabel_idx cid hinv q
      have hfresh' : ∀ q' ∈ rest,
          alookup (buildIndex (processLabel cid st q).states) (keyOf cid q'.1) = none := by
        intro q' hq'
        rw [hstep]
        simp only
        rw [buildIndex_append, keyDS_mkNewDS]
        have hne : keyOf cid q.1 ≠ keyOf cid q'.1 := by
          intro hkk
          exact hndq (keyOf_label_inj hkk ▸ List.mem_map.mpr ⟨q', hq', rfl⟩)
        simp only [alookup, if_neg hne]
        exact hfresh q' (List.mem_cons_of_mem q hq')
      rw [List.foldl_cons,
        foldl_processLabel_fresh cid rest (processLabel cid st q) hinv' hfresh' hndrest,
        hstep]
      rw [List.filter_cons_of_pos (by simpa using hn), List.map_cons, List.append_assoc]
      rfl
    · have hn' : ((mkNewDS cid q.1 q.2).eec.isSome || (mkNewDS cid q.1 q.2).pps.isSome)
          = true → False := by
        rw [mkNewDS_hasDefault]
        intro hx
        exact hn hx
      have hstep : processLabel cid st q = st := by
        cases hx : ((mkNewDS cid q.1 q.2).eec.isSome || (mkNewDS cid q.1 q.2).pps.isSome) with
        | true => exact absurd hx hn'
        | false => simp [processLabel, hl, hx]
      rw [List.foldl_cons, hstep,
        foldl_processLabel_fresh cid rest st hinv
          (fun q' hq' => hfresh q' (List.mem_cons_of_mem q hq')) hndrest,
        List.filter_cons_of_neg (by simpa using hn)]

/-- C6 amended: the engine is a deterministic function of the document,
registry and the enumeration order of the plugin's specific-defaults
map; newly synthesized desired-state entries are appended in exactly
that enumeration order (not sorted): for a default-type condition with
no user entries, the output list is the plugin list filtered to labels
carrying a default, in plugin-list order. -/
theorem c6_amended_enumeration_order (pm : Registry) (sub : Subsystem) (c : Condition)
    (p : HardwarePluginConfig) (hne : sub.hardwarePlugin ≠ "")
    (hp : alookup pm sub.hardwarePlugin = some p)
    (hnd : (p.specificDefaults.map Prod.fst).Nodup)
    (hdc : isDefaultCond c = true) (hds : c.desiredStates = []) :
    (applyCondP pm [sub] c).desiredStates =
      (p.specificDefaults.filter (fun q => q.2.eec.isSome || q.2.pps.isSome)).map
        (fun q => mkNewDS sub.dpll.clockID q.1 q.2) := by
  rw [applyCondP_desiredStates_of_default hdc, hds]
  rw [List.foldl_cons, List.foldl_nil]
  simp only [processSubsystem, hne, if_neg, hp, not_false_iff]
  rw [foldl_processLabel_fresh sub.dpll.clockID p.specificDefaults
    { states := [], idx := buildIndex [] } rfl (fun q hq => rfl) hnd]
  simp

/-- A specific default declaring only an EEC priority. -/
def c6Entry : SpecificDefaultEntry :=
  { eec := some { priority := some 0, state := "" }, pps := none }

/-- Plugin enumerating board labels in the order `a`, `b`. -/
def c6PluginA : HardwarePluginConfig :=
  { pluginInfo := { name := "p", description := "", version := "", vendor := "" },
    specificDefaults := [("a", c6Entry), ("b", c6Entry)], behaviorNotes := "" }

/-- The same map contents enumerated in the order `b`, `a`. -/
def c6PluginB : HardwarePluginConfig :=
  { pluginInfo := { name := "p", description := "", version := "", vendor := "" },
    specificDefaults := [("b", c6Entry), ("a", c6Entry)], behaviorNotes := "" }

/-- A subsystem referencing plugin `p` with clock ID `1`. -/
def c6Sub : Subsystem :=
  { name := "S", hardwarePlugin := "p",
    dpll := { clockID := "1", phaseInputs := [], phaseOutputs := [],
              frequencyInputs := [], frequencyOutputs := [] },
    ethernet := [] }

/-- The default-type condition used by the C6 document. -/
def c6Cond : Condition :=
  { name := "D",
    sources := [{ sourceName := "Default on profile (re)load", conditionType := "default" }],
    desiredStates := [] }

/-- The C6 document. -/
def c6Doc : ClockChain :=
  { commonDefinitions := none, chainStructure := [c6Sub],
    behavior := some { sources := [], conditions := [c6Cond] } }

/-- C6 counterexample: two plugin registries that are equal as maps
(the specific-defaults lists are permutations of each other) yield
different merged documents, so the output is a function of map
enumeration order, which Go does not fix; moreover under the `b`-first
enumeration the appended entries come out as `b`, `a`, which is not
sorted lexicographic order (since `"a" < "b"`). -/
theorem c6_determinism_counterexample :
    c6PluginA.specificDefaults.Perm c6PluginB.specificDefaults ∧
    (mergeUserConfigWithDefaults [("p", c6PluginA)] c6Doc).1 ≠
      (mergeUserConfigWithDefaults [("p", c6PluginB)] c6Doc).1 ∧
    ((mergeUserConfigWithDefaults [("p", c6PluginB)] c6Doc).1.behavior.map
      (fun b => b.conditions.map (fun c => c.desiredStates.map (fun d => d.boardLabel)))) =
      some [["b", "a"]] ∧
    ("a" : String) < "b" :=
  ⟨List.Perm.swap ("b", c6Entry) ("a", c6Entry) [], by decide, by decide,
    String.lt_iff_toList_lt.mpr (by decide)⟩

theorem c6_amended_enumeration_order_witness :
    (c6PluginB.specificDefaults.map Prod.fst).Nodup ∧ isDefaultCond c6Cond = true ∧
    (applyCondP [("p", c6PluginB)] [c6Sub] c6Cond).desiredStates =
      [mkNewDS "1" "b" c6Entry, mkNewDS "1" "a" c6Entry] := by
  refine ⟨by decide, rfl, ?_⟩
  have h := c6_amended_enumeration_order [("p", c6PluginB)] c6Sub c6Cond c6PluginB
    (by decide) rfl (by decide) rfl rfl
  rw [h]
  rfl

/-! ## C7: referenceSync validation -/

theorem mem_keys_iff_alookup {β : Type} : ∀ (l : List (String × β)) (k : String),
    k ∈ l.map Prod.fst ↔ (alookup l k).isSome = true
  | [], k => by simp [alookup]
  | (a, b) :: rest, k => by
    by_cases ha : a = k
    · subst ha
      simp [alookup]
    · simp [alookup, ha, Ne.symm ha, mem_keys_iff_alookup rest k]

theorem contains_keys_eq {β : Type} (l : List (String × β)) (k : String) :
    (l.map Prod.fst).contains k = (alookup l k).isSome := by
  by_cases h : k ∈ l.map Prod.fst
  · have h1 : (l.map Prod.fst).contains k = true := by simpa using h
    rw [h1, (mem_keys_iff_alookup l k).mp h]
  · have h1 : (l.map Prod.fst).contains k = false := by simpa using h
    have h2 : (alookup l k).isSome = false := by
      cases hx : (alookup l k).isSome
      · rfl
      · exact absurd ((mem_keys_iff_alookup l k).mpr hx) h
    rw [h1, h2]

theorem alookup_reverse_none {β : Type} {l : List (String × β)} {k : String}
    (h : alookup l k = none) : alookup l.reverse k = none := by
  rw [alookup_eq_none_iff] at h ⊢
  intro v hv
  exact h v (List.mem_reverse.mp hv)

theorem alookup_reverse_of_mem_nodup {β : Type} {l : List (String × β)} {k : String}
    {v : β} (hnd : (l.map Prod.fst).Nodup) (hmem : (k, v) ∈ l) :
    alookup l.reverse k = some v := by
  apply alookup_of_mem_nodup
  · rw [List.map_reverse]
    exact List.nodup_reverse.mpr hnd
  · exact List.mem_reverse.mpr hmem

theorem buildAllPins_lookup_fo {d : DPLL} {k : String} {cfg : PinConfig}
    (h : alookup d.frequencyOutputs.reverse k = some cfg) :
    alookup (buildAllPins d) k = some cfg := by
  unfold buildAllPins
  rw [foldl_assocSet_lookup, List.reverse_append, alookup_append, h]

theorem buildAllPins_lookup_fi {d : DPLL} {k : String} {cfg : PinConfig}
    (hfo : alookup d.frequencyOutputs k = none)
    (h : alookup d.frequencyInputs.reverse k = some cfg) :
    alookup (buildAllPins d) k = some cfg := by
  unfold buildAllPins
  rw [foldl_assocSet_lookup, List.reverse_append, alookup_append,
    alookup_reverse_none hfo, List.reverse_append, alookup_append, h]

theorem validate_eq_none_sub {cc : ClockChain} (h : validate cc = none) :
    ∀ sub ∈ cc.chainStructure,
      validateSubsystem (esyncNamesOf cc) (refsyncNamesOf cc) sub = none := by
  cases hs : cc.chainStructure.isEmpty with
  | true => simp [validate, hs] at h
  | false =>
    simp only [validate, hs, Bool.false_eq_true, if_false] at h
    cases hcd : commonDefsErr cc with
    | some e =>
      rw [hcd] at h
      simp at h
    | none =>
      rw [hcd] at h
      cases hfe : firstErr (validateSubsystem (esyncNamesOf cc) (refsyncNamesOf cc))
          cc.chainStructure with
      | some e =>
        rw [hfe] at h
        simp at h
      | none => exact (firstErr_eq_none _ _).mp hfe

theorem validateSubsystem_eq_none_pins {es rs : List String} {sub : Subsystem}
    (h : validateSubsystem es rs sub = none) :
    ∀ q ∈ buildAllPins sub.dpll,
      pinCheck es rs sub.name (phaseLabelsOf sub.dpll)
        (sub.dpll.frequencyInputs.map Prod.fst) (sub.dpll.frequencyOutputs.map Prod.fst)
        q.1 q.2 = none := by
  unfold validateSubsystem at h
  cases hce : subsystemClockIDErr sub with
  | some e =>
    rw [hce] at h
    simp at h
  | none =>
    rw [hce] at h
    exact (firstErr_eq_none _ _).mp h

theorem pinCheck_none_refSync {es rs : List String} {sn : String}
    {pl fi fo : List String} {label : String} {cfg : PinConfig}
    (h : pinCheck es rs sn pl fi fo label cfg = none) :
    refSyncCheck sn pl fi fo label cfg = none := by
  unfold pinCheck at h
  split at h
  · exact absurd h (by simp)
  · split at h
    · exact absurd h (by simp)
    · exact h

theorem refSyncCheck_fo_rejects {sn : String} {pl fi fo : List String} {label : String}
    {cfg : PinConfig} (h1 : cfg.referenceSync ≠ "") (h2 : fi.contains label = false)
    (h3 : fo.contains label = true) :
    refSyncCheck sn pl fi fo label cfg =
      some ("referenceSync is not supported on frequency output pin " ++ label
        ++ " in subsystem " ++ sn) := by
  have h2' : label ∉ fi := by simpa using h2
  have h3' : label ∈ fo := by simpa using h3
  simp [refSyncCheck, h1, h2', h3']

theorem refSyncCheck_fi_bad_target {sn : String} {pl fi fo : List String} {label : String}
    {cfg : PinConfig} (h1 : cfg.referenceSync ≠ "") (h2 : fi.contains label = true)
    (h3 : pl.contains cfg.referenceSync = false) :
    refSyncCheck sn pl fi fo label cfg =
      some ("referenceSync " ++ cfg.referenceSync ++ " not found among phase pins in subsystem "
        ++ sn ++ " (referenced by " ++ label ++ ")") := by
  have h2' : label ∈ fi := by simpa using h2
  have h3' : cfg.referenceSync ∉ pl := by simpa using h3
  simp [refSyncCheck, h1, h2', h3']

/-- C7 amended: the `referenceSync` checks hold for board labels that
are not shadowed inside `allPinConfigs` (a label present in both
`frequencyInputs` and `frequencyOutputs` is inspected only through its
frequency-output config, which escapes the rejection — see the
counterexample).  (1) A `referenceSync` on a frequency-output pin whose
label is not also a frequency-input label fails validation.  (2) The
`referenceSync` check itself passes for any frequency-input pin whose
target is among the phase labels.  (3) A `referenceSync` on a
frequency-input pin naming an absent phase label fails validation
provided the label is not also a frequency-output label. -/
theorem c7_referenceSync_checks :
    (∀ (cc : ClockChain) (sub : Subsystem) (label : String) (cfg : PinConfig),
      sub ∈ cc.chainStructure → (sub.dpll.frequencyOutputs.map Prod.fst).Nodup →
      (label, cfg) ∈ sub.dpll.frequencyOutputs → cfg.referenceSync ≠ "" →
      alookup sub.dpll.frequencyInputs label = none → validate cc ≠ none) ∧
    (∀ (sn : String) (pl fi fo : List String) (label : String) (cfg : PinConfig),
      fi.contains label = true → pl.contains cfg.referenceSync = true →
      refSyncCheck sn pl fi fo label cfg = none) ∧
    (∀ (cc : ClockChain) (sub : Subsystem) (label : String) (cfg : PinConfig),
      sub ∈ cc.chainStructure → (sub.dpll.frequencyInputs.map Prod.fst).Nodup →
      (label, cfg) ∈ sub.dpll.frequencyInputs → cfg.referenceSync ≠ "" →
      (phaseLabelsOf sub.dpll).contains cfg.referenceSync = false →
      alookup sub.dpll.frequencyOutputs label = none → validate cc ≠ none) := by
  refine ⟨?_, ?_, ?_⟩
  · intro cc sub label cfg hsub hnd hmem hrs hfi hv
    have hsurv : alookup (buildAllPins sub.dpll) label = some cfg :=
      buildAllPins_lookup_fo (alookup_reverse_of_mem_nodup hnd hmem)
    have hpc := validateSubsystem_eq_none_pins (validate_eq_none_sub hv sub hsub)
      (label, cfg) (alookup_eq_some_mem hsurv)
    have hrc := pinCheck_none_refSync hpc
    have h2 : (sub.dpll.frequencyInputs.map Prod.fst).contains label = false := by
      rw [contains_keys_eq, hfi]
      rfl
    have h3 : (sub.dpll.frequencyOutputs.map Prod.fst).contains label = true := by
      rw [contains_keys_eq]
      rw [alookup_of_mem_nodup hnd hmem]
      rfl
    rw [refSyncCheck_fo_rejects hrs h2 h3] at hrc
    exact Option.noConfusion hrc
  · intro sn pl fi fo label cfg h2 h3
    have h2' : label ∈ fi := by simpa using h2
    have h3' : cfg.referenceSync ∈ pl := by simpa using h3
    by_cases h1 : cfg.referenceSync = "" <;> simp [refSyncCheck, h1, h2', h3']
  · intro cc sub label cfg hsub hnd hmem hrs hpl hfo hv
    have hsurv : alookup (buildAllPins sub.dpll) label = some cfg :=
      buildAllPins_lookup_fi hfo (alookup_reverse_of_mem_nodup hnd hmem)
    have hpc := validateSubsystem_eq_none_pins (validate_eq_none_sub hv sub hsub)
      (label, cfg) (alookup_eq_some_mem hsurv)
    have hrc := pinCheck_none_refSync hpc
    have h2 : (sub.dpll.frequencyInputs.map Prod.fst).contains label = true := by
      rw [contains_keys_eq, alookup_of_mem_nodup hnd hmem]
      rfl
    rw [refSyncCheck_fi_bad_target hrs h2 hpl] at hrc
    exact Option.noConfusion hrc

/-- A pin config with no fields set. -/
def c7PinPlain : PinConfig :=
  { connector := "", phaseAdjustment := none, frequency := none,
    syncTechnologyConfigName := "", description := "", referenceSync := "" }

/-- A pin config whose referenceSync names phase pin `P`. -/
def c7PinRefP : PinConfig := { c7PinPlain with referenceSync := "P" }

/-- A pin config whose referenceSync names the absent label `Q`. -/
def c7PinRefQ : PinConfig := { c7PinPlain with referenceSync := "Q" }

/-- The shadowed C7 subsystem: label `L` appears in `frequencyInputs`
and in `frequencyOutputs`, and the frequency-output config carries a
`referenceSync`. -/
def c7ShadowSub : Subsystem :=
  { name := "S", hardwarePlugin := "",
    dpll :=
      { clockID := "", phaseInputs := [("P", c7PinPlain)], phaseOutputs := [],
        frequencyInputs := [("L", c7PinPlain)],
        frequencyOutputs := [("L", c7PinRefP)] },
    ethernet := [] }

/-- The shadowed C7 document. -/
def c7ShadowDoc : ClockChain :=
  { commonDefinitions := none, chainStructure := [c7ShadowSub], behavior := none }

/-- C7 counterexample: a pin inside `frequencyOutputs` sets
`referenceSync`, yet the document passes validation, because the label
also occurs in `frequencyInputs` and the frequency-input membership
test is keyed by label, not by which map the surviving config came
from. -/
theorem c7_frequency_output_accepted_counterexample :
    ("L", c7PinRefP) ∈ c7ShadowSub.dpll.frequencyOutputs ∧
    c7PinRefP.referenceSync = "P" ∧
    validate c7ShadowDoc = none := by
  refine ⟨by decide, rfl, by decide⟩

/-- A subsystem with a referenceSync on a pure frequency-output pin. -/
def c7RejSub : Subsystem :=
  { name := "S", hardwarePlugin := "",
    dpll :=
      { clockID := "", phaseInputs := [("P", c7PinPlain)], phaseOutputs := [],
        frequencyInputs := [], frequencyOutputs := [("L", c7PinRefP)] },
    ethernet := [] }

/-- Document for the rejection half of the C7 witness. -/
def c7RejDoc : ClockChain :=
  { commonDefinitions := none, chainStructure := [c7RejSub], behavior := none }

/-- A subsystem with a frequency-input referenceSync naming an absent
phase label. -/
def c7BadTargetSub : Subsystem :=
  { name := "S", hardwarePlugin := "",
    dpll :=
      { clockID := "", phaseInputs := [("P", c7PinPlain)], phaseOutputs := [],
        frequencyInputs := [("M", c7PinRefQ)], frequencyOutputs := [] },
    ethernet := [] }

/-- Document for the bad-target half of the C7 witness. -/
def c7BadTargetDoc : ClockChain :=
  { commonDefinitions := none, chainStructure := [c7BadTargetSub], behavior := none }

theorem c7_referenceSync_checks_witness :
    validate c7RejDoc ≠ none ∧
    refSyncCheck "S" ["P"] ["L"] [] "L" c7PinRefP = none ∧
    validate c7BadTargetDoc ≠ none := by
  refine ⟨?_, ?_, ?_⟩
  · exact c7_referenceSync_checks.1 c7RejDoc c7RejSub "L" c7PinRefP (by decide)
      (by decide) (by decide) (by decide) (by decide)
  · exact c7_referenceSync_checks.2.1 "S" ["P"] ["L"] [] "L" c7PinRefP (by decide) (by decide)
  · exact c7_referenceSync_checks.2.2 c7BadTargetDoc c7BadTargetSub "M" c7PinRefQ (by decide)
      (by decide) (by decide) (by decide) (by decide) (by decide)

/-! ## C8: alias resolution idempotence -/

theorem validClockID_ne_empty {s : String} (h : validClockID s = true) : s ≠ "" := by
  intro hs
  subst hs
  have hf : validClockID "" = false := by decide
  rw [hf] at h
  exact Bool.noConfusion h

theorem validateClockID_eq_none {s : String} (h : validateClockID s = none) :
    validClockID s = true := by
  by_cases hv : validClockID s = true
  · exact hv
  · simp [validateClockID, hv] at h

/-- Every value in the alias table satisfies the clock-ID format
(`BuildClockAliasMap` validates each target before inserting it). -/
def goodAliasMap (m : List (String × String)) : Prop :=
  ∀ k v, alookup m k = some v → validClockID v = true

theorem buildAliasEntries_good :
    ∀ {acc : List (String × String)} {cds : List ClockIdentifier}
      {m : List (String × String)},
    goodAliasMap acc → buildAliasEntries acc cds = .ok m → goodAliasMap m
  | acc, [], m, hacc, h => by
    simp only [buildAliasEntries] at h
    injection h with h
    subst h
    exact hacc
  | acc, ident :: rest, m, hacc, h => by
    by_cases he : ident.aliasName = ""
    · simp [buildAliasEntries, he] at h
    · rw [buildAliasEntries, if_neg he] at h
      cases ha : validateAlphanumDash ident.aliasName with
      | some e => rw [ha] at h; exact absurd h (by simp)
      | none =>
        rw [ha] at h
        cases hc : validateClockID ident.clockID with
        | some e => rw [hc] at h; exact absurd h (by simp)
        | none =>
          rw [hc] at h
          by_cases hdup : (alookup acc ident.aliasName).isSome = true
          · simp [hdup] at h
          · rw [if_neg hdup] at h
            refine buildAliasEntries_good ?_ h
            intro k v hkv
            rw [alookup_append] at hkv
            cases hal : alookup acc k with
            | some w =>
              rw [hal] at hkv
              injection hkv with hkv
              subst hkv
              exact hacc k w hal
            | none =>
              rw [hal] at hkv
              by_cases hk : ident.aliasName = k
              · simp only [alookup, hk, if_pos] at hkv
                injection hkv with hkv
                subst hkv
                exact validateClockID_eq_none hc
              · simp only [alookup, hk, if_neg, not_false_iff] at hkv
                exact absurd hkv (by simp [alookup])

theorem buildClockAliasMap_good {cc : ClockChain} {m : List (String × String)}
    (h : buildClockAliasMap cc = .ok m) : goodAliasMap m := by
  unfold buildClockAliasMap at h
  cases hcd : cc.commonDefinitions with
  | none =>
    rw [hcd] at h
    injection h with h
    subst h
    intro k v hkv
    simp [alookup] at hkv
  | some cd =>
    rw [hcd] at h
    exact buildAliasEntries_good (fun k v hkv => by simp [alookup] at hkv) h

theorem resolveClockIDValue_idem {m : List (String × String)} (hm : goodAliasMap m)
    {x v : String} (h : resolveClockIDValue x m = .ok v) :
    resolveClockIDValue v m = .ok v := by
  unfold resolveClockIDValue at h ⊢
  by_cases hx : x = ""
  · rw [if_pos hx] at h
    injection h with h
    subst h
    simp [hx]
  · rw [if_neg hx] at h
    by_cases hvalid : validClockID x = true
    · rw [if_pos hvalid] at h
      injection h with h
      subst h
      simp [hx, hvalid]
    · rw [if_neg hvalid] at h
      cases hl : alookup m x with
      | none => rw [hl] at h; exact absurd h (by simp)
      | some r =>
        rw [hl] at h
        injection h with h
        have hvr : validClockID r = true := hm x r hl
        rw [← h]
        simp [validClockID_ne_empty hvr, hvr]

theorem resolveStructureList_idem (m : List (String × String)) (hm : goodAliasMap m) :
    ∀ (i : Nat) (l : List Subsystem),
    resolveStructureList m i (resolveStructureList m i l).1 = resolveStructureList m i l
  | i, [] => rfl
  | i, s :: rest => by
    by_cases hcid : s.dpll.clockID = ""
    · simp only [resolveStructureList, hcid, if_pos]
      rw [resolveStructureList_idem m hm (i + 1) rest]
    · cases hr : resolveClockIDValue s.dpll.clockID m with
      | error e => simp only [resolveStructureList, hcid, if_neg, not_false_iff, hr]
      | ok v =>
        have hv := resolveClockIDValue_idem hm hr
        have hvne : v ≠ "" := by
          intro hv0
          subst hv0
          unfold resolveClockIDValue at hv
          simp only [if_pos rfl] at hv
          unfold resolveClockIDValue at hr
          rw [if_neg hcid] at hr
          by_cases hvalid : validClockID s.dpll.clockID = true
          · rw [if_pos hvalid] at hr
            injection hr with hr
            exact hcid hr
          · rw [if_neg hvalid] at hr
            cases hl : alookup m s.dpll.clockID with
            | none => rw [hl] at hr; exact absurd hr (by simp)
            | some r =>
              rw [hl] at hr
              injection hr with hr
              subst hr
              exact validClockID_ne_empty (hm _ _ hl) rfl
        simp only [resolveStructureList, hcid, if_neg, not_false_iff, hr]
        simp only [resolveStructureList, hvne, if_neg, not_false_iff, hv]
        rw [resolveStructureList_idem m hm (i + 1) rest]

theorem resolveSourcesList_idem (m : List (String × String)) (hm : goodAliasMap m) :
    ∀ (i : Nat) (l : List SourceConfig),
    resolveSourcesList m i (resolveSourcesList m i l).1 = resolveSourcesList m i l
  | i, [] => rfl
  | i, src :: rest => by
    cases hr : resolveClockIDValue src.clockID m with
    | error e => simp only [resolveSourcesList, hr]
    | ok v =>
      have hv := resolveClockIDValue_idem hm hr
      simp only [resolveSourcesList, hr]
      simp only [resolveSourcesList, hv]
      rw [resolveSourcesList_idem m hm (i + 1) rest]

theorem resolveDesiredList_idem (m : List (String × String)) (hm : goodAliasMap m) :
    ∀ (ci di : Nat) (l : List DesiredState),
    resolveDesiredList m ci di (resolveDesiredList m ci di l).1 = resolveDesiredList m ci di l
  | ci, di, [] => rfl
  | ci, di, ds :: rest => by
    cases hr : resolveClockIDValue ds.clockID m with
    | error e => simp only [resolveDesiredList, hr]
    | ok v =>
      have hv := resolveClockIDValue_idem hm hr
      simp only [resolveDesiredList, hr]
      simp only [resolveDesiredList, hv]
      rw [resolveDesiredList_idem m hm ci (di + 1) rest]

theorem resolveCondsList_idem (m : List (String × String)) (hm : goodAliasMap m) :
    ∀ (ci : Nat) (l : List Condition),
    resolveCondsList m ci (resolveCondsList m ci l).1 = resolveCondsList m ci l
  | ci, [] => rfl
  | ci, c :: rest => by
    have hd := resolveDesiredList_idem m hm ci 0 c.desiredStates
    cases hr : (resolveDesiredList m ci 0 c.desiredStates).2 with
    | some e =>
      simp only [resolveCondsList, hr]
      have hds : resolveDesiredList m ci 0
          ({ c with desiredStates := (resolveDesiredList m ci 0 c.desiredStates).1 }
            : Condition).desiredStates =
          ((resolveDesiredList m ci 0 c.desiredStates).1, some e) := by
        show resolveDesiredList m ci 0 (resolveDesiredList m ci 0 c.desiredStates).1 = _
        rw [hd]
        exact Prod.ext rfl hr
      simp only [resolveCondsList, hds]
    | none =>
      simp only [resolveCondsList, hr]
      have hds : resolveDesiredList m ci 0
          ({ c with desiredStates := (resolveDesiredList m ci 0 c.desiredStates).1 }
            : Condition).desiredStates =
          ((resolveDesiredList m ci 0 c.desiredStates).1, none) := by
        show resolveDesiredList m ci 0 (resolveDesiredList m ci 0 c.desiredStates).1 = _
        rw [hd]
        exact Prod.ext rfl hr
      simp only [resolveCondsList, hds]
      rw [resolveCondsList_idem m hm (ci + 1) rest]

theorem resolveClockAliases_idem (cc : ClockChain) :
    resolveClockAliases (resolveClockAliases cc).1 = resolveClockAliases cc := by
  cases hb : buildClockAliasMap cc with
  | error e =>
    have h1 : resolveClockAliases cc = (cc, some e) := by
      simp [resolveClockAliases, hb]
    rw [h1]
    exact h1
  | ok m =>
    have hm : goodAliasMap m := buildClockAliasMap_good hb
    have hsidem := resolveStructureList_idem m hm 0 cc.chainStructure
    cases hrs : (resolveStructureList m 0 cc.chainStructure).2 with
    | some e =>
      have h1 : resolveClockAliases cc =
          ({ cc with chainStructure := (resolveStructureList m 0 cc.chainStructure).1 },
            some e) := by
        simp [resolveClockAliases, hb, hrs]
      rw [h1]
      have hb1 : buildClockAliasMap
          { cc with chainStructure := (resolveStructureList m 0 cc.chainStructure).1 } =
          .ok m := hb
      have hs1 : resolveStructureList m 0 (resolveStructureList m 0 cc.chainStructure).1 =
          ((resolveStructureList m 0 cc.chainStructure).1, some e) := by
        rw [hsidem]
        exact Prod.ext rfl hrs
      simp [resolveClockAliases, hb1, hs1]
    | none =>
      have hs1 : resolveStructureList m 0 (resolveStructureList m 0 cc.chainStructure).1 =
          ((resolveStructureList m 0 cc.chainStructure).1, none) := by
        rw [hsidem]
        exact Prod.ext rfl hrs
      cases hbeh : cc.behavior with
      | none =>
        have h1 : resolveClockAliases cc =
            ({ cc with chainStructure := (resolveStructureList m 0 cc.chainStructure).1 },
              none) := by
          simp [resolveClockAliases, hb, hrs, hbeh]
        rw [h1]
        have hb2 : buildClockAliasMap { commonDefinitions := cc.commonDefinitions, chainStructure := (resolveStructureList m 0 cc.chainStructure).1, behavior := none } = .ok m := hb
        simp [resolveClockAliases, hb2, hs1, hbeh]
      | some b =>
        have hsrcidem := resolveSourcesList_idem m hm 0 b.sources
        cases hrsrc : (resolveSourcesList m 0 b.sources).2 with
        | some e =>
          have h1 : resolveClockAliases cc =
              ({ cc with
                  chainStructure := (resolveStructureList m 0 cc.chainStructure).1,
                  behavior := some { b with sources := (resolveSourcesList m 0 b.sources).1 } },
                some e) := by
            simp [resolveClockAliases, hb, hrs, hbeh, hrsrc]
          rw [h1]
          have hsrc1 : resolveSourcesList m 0 (resolveSourcesList m 0 b.sources).1 =
              ((resolveSourcesList m 0 b.sources).1, some e) := by
            rw [hsrcidem]
            exact Prod.ext rfl hrsrc
          have hb2 : buildClockAliasMap { cc with chainStructure := (resolveStructureList m 0 cc.chainStructure).1, behavior := some { b with sources := (resolveSourcesList m 0 b.sources).1 } } = .ok m := hb
          simp [resolveClockAliases, hb2, hs1, hsrc1]
        | none =>
          have hsrc1 : resolveSourcesList m 0 (resolveSourcesList m 0 b.sources).1 =
              ((resolveSourcesList m 0 b.sources).1, none) := by
            rw [hsrcidem]
            exact Prod.ext rfl hrsrc
          have hcondidem := resolveCondsList_idem m hm 0 b.conditions
          have hcond1 : resolveCondsList m 0 (resolveCondsList m 0 b.conditions).1 =
              ((resolveCondsList m 0 b.conditions).1,
                (resolveCondsList m 0 b.conditions).2) := by
            rw [hcondidem]
          have h1 : resolveClockAliases cc =
              ({ cc with
                  chainStructure := (resolveStructureList m 0 cc.chainStructure).1,
                  behavior := some { b with
                    sources := (resolveSourcesList m 0 b.sources).1,
                    conditions := (resolveCondsList m 0 b.conditions).1 } },
                (resolveCondsList m 0 b.conditions).2) := by
            simp [resolveClockAliases, hb, hrs, hbeh, hrsrc]
          rw [h1]
          have hb2 : buildClockAliasMap { cc with chainStructure := (resolveStructureList m 0 cc.chainStructure).1, behavior := some { b with sources := (resolveSourcesList m 0 b.sources).1, conditions := (resolveCondsList m 0 b.conditions).1 } } = .ok m := hb
          simp [resolveClockAliases, hb2, hs1, hsrc1, hcond1]

/-- C8: a syntactically valid clock ID resolves to itself regardless of
the alias table, and document-wide alias resolution is idempotent:
re-running it on the document it produced changes nothing (including
the reported error, if any). -/
theorem c8_resolution_idempotent :
    (∀ (v : String) (m : List (String × String)), validClockID v = true →
      resolveClockIDValue v m = .ok v) ∧
    (∀ cc : ClockChain, resolveClockAliases (resolveClockAliases cc).1 = resolveClockAliases cc) := by
  constructor
  · intro v m hv
    unfold resolveClockIDValue
    simp [validClockID_ne_empty hv, hv]
  · exact resolveClockAliases_idem

/-- A subsystem using the alias `GM` as its clock ID. -/
def c8Sub : Subsystem :=
  { name := "A", hardwarePlugin := "",
    dpll := { clockID := "GM", phaseInputs := [], phaseOutputs := [],
              frequencyInputs := [], frequencyOutputs := [] },
    ethernet := [] }

/-- A document with an alias in use, for the C8 witness. -/
def c8Doc : ClockChain :=
  { commonDefinitions := some
      { eSyncDefinitions := [], refSyncDefinitions := [],
        clockIdentifiers := [{ aliasName := "GM", clockID := "0xab", description := "" }] },
    chainStructure := [c8Sub],
    behavior := none }

theorem c8_resolution_idempotent_witness :
    validClockID "0xab" = true ∧
    resolveClockIDValue "0xab" [("0xab", "99")] = .ok "0xab" ∧
    resolveClockAliases (resolveClockAliases c8Doc).1 = resolveClockAliases c8Doc :=
  ⟨by decide, c8_resolution_idempotent.1 "0xab" [("0xab", "99")] (by decide),
    c8_resolution_idempotent.2 c8Doc⟩

/-- The plugin default used by the C3 witness: PPS only. -/
def c3Default : SpecificDefaultEntry :=
  { eec := none, pps := some { priority := some 5, state := "" } }

/-- Plugin declaring `c3Default` for board label `L`. -/
def c3Plugin : HardwarePluginConfig :=
  { pluginInfo := { name := "p3", description := "", version := "", vendor := "" },
    specificDefaults := [("L", c3Default)], behaviorNotes := "" }

/-- Subsystem covering merge key `1:L` through plugin `p3`. -/
def c3Sub : Subsystem :=
  { name := "S", hardwarePlugin := "p3",
    dpll := { clockID := "1", phaseInputs := [], phaseOutputs := [],
              frequencyInputs := [], frequencyOutputs := [] },
    ethernet := [] }

/-- The user-authored desired state: EEC set, PPS omitted. -/
def c3UserDS : DesiredState :=
  { clockID := "1", boardLabel := "L",
    eec := some { priority := some 7, state := "" }, pps := none }

/-- The default condition holding the user entry. -/
def c3Cond : Condition :=
  { name := "D",
    sources := [{ sourceName := "Default on profile (re)load", conditionType := "default" }],
    desiredStates := [c3UserDS] }

/-- The behavior section of the C3 document. -/
def c3Behavior : Behavior := { sources := [], conditions := [c3Cond] }

/-- The C3 document. -/
def c3Doc : ClockChain :=
  { commonDefinitions := none, chainStructure := [c3Sub], behavior := some c3Behavior }

theorem c3_overlay_precedence_witness :
    c3UserDS.eec = some { priority := some 7, state := "" } ∧ c3UserDS.pps = none ∧
    coveringDefaults [("p3", c3Plugin)] c3Doc.chainStructure (keyDS c3UserDS) = [c3Default] ∧
    (∃ b', (mergeUserConfigWithDefaults [("p3", c3Plugin)] c3Doc).1.behavior = some b' ∧
      applyCondP [("p3", c3Plugin)] c3Doc.chainStructure c3Cond ∈ b'.conditions ∧
      (applyCondP [("p3", c3Plugin)] c3Doc.chainStructure c3Cond).desiredStates.get? 0 =
        some { clockID := c3UserDS.clockID, boardLabel := c3UserDS.boardLabel,
               eec := some { priority := some 7, state := "" },
               pps := some (mkPinState { priority := some 5, state := "" }) }) := by
  refine ⟨rfl, rfl, by decide, ?_⟩
  exact c3_overlay_precedence [("p3", c3Plugin)] c3Doc c3Behavior c3Cond 0 c3UserDS
    { priority := some 7, state := "" } c3Default { priority := some 5, state := "" }
    rfl (by decide) rfl rfl (by decide) rfl rfl (by decide) rfl

/-! ## C9: plugin registry loading -/

/-- A directory entry whose load would fail: either decoding fails or
the decoded plugin lacks a name. -/
def loadFails (f : FileEntry) : Prop :=
  (∃ e, f.parsed = .error e) ∨ (∃ p, f.parsed = .ok p ∧ p.pluginInfo.name = "")

theorem loadPluginFold_error :
    ∀ (l : List FileEntry) (acc : Registry) (f : FileEntry), f ∈ l →
      eligibleFile f = true → loadFails f → ∃ e, loadPluginFold acc l = .error e
  | [], acc, f, hf, _, _ => absurd hf (by simp)
  | g :: rest, acc, f, hf, hel, hfail => by
    by_cases hg : eligibleFile g = true
    · cases hp : g.parsed with
      | error e =>
        exact ⟨"failed to load plugin " ++ g.name ++ ": " ++ e, by
          simp [loadPluginFold, hg, hp]⟩
      | ok p =>
        by_cases hn : p.pluginInfo.name = ""
        · exact ⟨"failed to load plugin " ++ g.name ++ ": plugin must have a name", by
            simp [loadPluginFold, hg, hp, hn]⟩
        · rcases List.mem_cons.mp hf with rfl | hf'
          · exfalso
            rcases hfail with ⟨e, he⟩ | ⟨q, hq, hqn⟩
            · rw [hp] at he
              exact Except.noConfusion he
            · rw [hp] at hq
              injection hq with hq
              subst hq
              exact hn hqn
          · obtain ⟨e, he⟩ := loadPluginFold_error rest
              (assocSet acc p.pluginInfo.name p) f hf' hel hfail
            exact ⟨e, by simp [loadPluginFold, hg, hp, hn, he]⟩
    · rcases List.mem_cons.mp hf with rfl | hf'
      · exact absurd hel hg
      · obtain ⟨e, he⟩ := loadPluginFold_error rest acc f hf' hel hfail
        exact ⟨e, by simp [loadPluginFold, hg, he]⟩

theorem loadPluginFold_ok :
    ∀ (l : List FileEntry) (acc : Registry),
    (∀ f ∈ l, eligibleFile f = true → ∃ p, f.parsed = .ok p ∧ p.pluginInfo.name ≠ "") →
    ∃ r, loadPluginFold acc l = .ok r ∧
      (∀ k v, alookup r k = some v → alookup acc k = some v ∨
        (v.pluginInfo.name = k ∧ ∃ f ∈ l, eligibleFile f = true ∧ f.parsed = .ok v)) ∧
      (∀ f ∈ l, ∀ p, eligibleFile f = true → f.parsed = .ok p →
        (alookup r p.pluginInfo.name).isSome = true) ∧
      (∀ k, (alookup acc k).isSome = true → (alookup r k).isSome = true)
  | [], acc, _ =>
    ⟨acc, rfl, fun k v h => Or.inl h, by simp, fun _ h => h⟩
  | g :: rest, acc, hgood => by
    by_cases hg : eligibleFile g = true
    · obtain ⟨p, hp, hn⟩ := hgood g (List.mem_cons_self g rest) hg
      obtain ⟨r, hr, h1, h2, h3⟩ := loadPluginFold_ok rest (assocSet acc p.pluginInfo.name p)
        (fun f hf he => hgood f (List.mem_cons_of_mem g hf) he)
      refine ⟨r, by simp [loadPluginFold, hg, hp, hn, hr], ?_, ?_, ?_⟩
      · intro k v hkv
        rcases h1 k v hkv with hacc | ⟨hname, f, hf, hfe, hfp⟩
        · by_cases hk : k = p.pluginInfo.name
          · subst hk
            rw [alookup_assocSet_self] at hacc
            injection hacc with hacc
            subst hacc
            exact Or.inr ⟨rfl, g, List.mem_cons_self g rest, hg, hp⟩
          · rw [alookup_assocSet_ne acc p.pluginInfo.name k p hk] at hacc
            exact Or.inl hacc
        · exact Or.inr ⟨hname, f, List.mem_cons_of_mem g hf, hfe, hfp⟩
      · intro f hf q hfe hfp
        rcases List.mem_cons.mp hf with rfl | hf'
        · rw [hp] at hfp
          injection hfp with hfp
          subst hfp
          exact h3 _ (by rw [alookup_assocSet_self]; rfl)
        · exact h2 f hf' q hfe hfp
      · intro k hk
        apply h3
        by_cases hkp : k = p.pluginInfo.name
        · subst hkp
          rw [alookup_assocSet_self]
          rfl
        · rw [alookup_assocSet_ne acc p.pluginInfo.name k p hkp]
          exact hk
    · obtain ⟨r, hr, h1, h2, h3⟩ := loadPluginFold_ok rest acc
        (fun f hf he => hgood f (List.mem_cons_of_mem g hf) he)
      refine ⟨r, by simp [loadPluginFold, hg, hr], ?_, ?_, h3⟩
      · intro k v hkv
        rcases h1 k v hkv with hacc | ⟨hname, f, hf, hfe, hfp⟩
        · exact Or.inl hacc
        · exact Or.inr ⟨hname, f, List.mem_cons_of_mem g hf, hfe, hfp⟩
      · intro f hf q hfe hfp
        rcases List.mem_cons.mp hf with rfl | hf'
        · exact absurd hfe hg
        · exact h2 f hf' q hfe hfp

/-- C9: loading from a missing directory succeeds with an empty
registry; loading from an existing directory fails as a whole if any
eligible (`.yaml`/`.yml`, non-directory) file is malformed or lacks a
plugin name; otherwise it succeeds and stores every eligible file's
plugin keyed by its name. -/
theorem c9_plugin_loading :
    loadPlugins .notExist = .ok [] ∧
    (∀ (l : List FileEntry) (f : FileEntry), f ∈ l → eligibleFile f = true →
      loadFails f → ∃ e, loadPlugins (.files l) = .error e) ∧
    (∀ l : List FileEntry,
      (∀ f ∈ l, eligibleFile f = true → ∃ p, f.parsed = .ok p ∧ p.pluginInfo.name ≠ "") →
      ∃ r, loadPlugins (.files l) = .ok r ∧
        (∀ f ∈ l, ∀ p, eligibleFile f = true → f.parsed = .ok p →
          (alookup r p.pluginInfo.name).isSome = true) ∧
        (∀ k v, alookup r k = some v → v.pluginInfo.name = k ∧
          ∃ f ∈ l, eligibleFile f = true ∧ f.parsed = .ok v)) := by
  refine ⟨rfl, ?_, ?_⟩
  · intro l f hf he hfail
    exact loadPluginFold_error l [] f hf he hfail
  · intro l hgood
    obtain ⟨r, hr, h1, h2, _⟩ := loadPluginFold_ok l [] hgood
    refine ⟨r, hr, h2, ?_⟩
    intro k v hkv
    rcases h1 k v hkv with hacc | ⟨hname, f, hf, hfe, hfp⟩
    · simp [alookup] at hacc
    · exact ⟨hname, f, hf, hfe, hfp⟩

/-- A well-formed plugin file entry. -/
def c9GoodFile : FileEntry :=
  { name := "a.yaml", isDir := false, parsed := .ok samplePlugin }

/-- A file entry ignored by loading (wrong extension). -/
def c9TxtFile : FileEntry :=
  { name := "notes.txt", isDir := false, parsed := .error "not yaml" }

/-- A malformed plugin file entry. -/
def c9BadFile : FileEntry :=
  { name := "bad.yml", isDir := false, parsed := .error "yaml: unmarshal error" }

theorem c9_plugin_loading_witness :
    loadPlugins .notExist = .ok [] ∧
    (∃ e, loadPlugins (.files [c9GoodFile, c9BadFile]) = .error e) ∧
    (∃ r, loadPlugins (.files [c9GoodFile, c9TxtFile]) = .ok r ∧
      (alookup r "e810").isSome = true) := by
  refine ⟨c9_plugin_loading.1, ?_, ?_⟩
  · exact c9_plugin_loading.2.1 [c9GoodFile, c9BadFile] c9BadFile
      (List.mem_cons_of_mem _ (List.mem_cons_self _ _)) rfl
      (Or.inl ⟨"yaml: unmarshal error", rfl⟩)
  · obtain ⟨r, hr, h2, _⟩ := c9_plugin_loading.2.2 [c9GoodFile, c9TxtFile]
      (fun f hf he => by
        rcases List.mem_cons.mp hf with rfl | hf'
        · exact ⟨samplePlugin, rfl, by decide⟩
        · rcases List.mem_cons.mp hf' with rfl | hf''
          · exact absurd he (by decide)
          · simp at hf'')
    exact ⟨r, hr, h2 c9GoodFile (List.mem_cons_self _ _) samplePlugin rfl rfl⟩
